import Mathlib

/-!
Shallow embedding of the Pluggy webhook synchronization pipeline
(`src/lib/services/webhooks/webhook.ts`, first revision, together with the
per-entity persistence services in `src/lib/services` and the unnamed
service sources).  Provider fetches and the datastore backend are modelled
as an environment of oracles; JavaScript exceptions become an explicit
`Except` channel threaded together with the state, so that effects
performed before a throw persist.  The trace records provider fetches,
persistence calls (attempted calls are recorded even when the backend
errors) and `console.error` logs; plain `console.log`/`console.warn`
output is not modelled.
-/

/-- A JavaScript `Date`-like object, modelled by the ISO-8601 string its
`toISOString()` method produces. -/
structure JsDateObj where
  iso : String
deriving DecidableEq

/-- A JavaScript value found in a provider `date` field: either a string or
a date-like object. -/
inductive JsDate where
  | str (s : String)
  | obj (o : JsDateObj)
deriving DecidableEq

/-- Truthiness of an optional JS string (`undefined` and `""` are falsy). -/
def truthyStr : Option String → Bool
  | some s => !(s == "")
  | none => false

/-- Truthiness of an optional JS number (`undefined` and `0` are falsy). -/
def truthyInt : Option Int → Bool
  | some n => !(n == 0)
  | none => false

/-- JavaScript `a || b` on optional strings: `a` when truthy, else `b`. -/
def jsOrStr (a b : Option String) : Option String :=
  if truthyStr a then a else b

/-- JavaScript `a.includes(b)` for a non-empty needle, via `splitOn`. -/
def jsIncludes (s sub : String) : Bool :=
  (s.splitOn sub).length != 1

/-- JavaScript truthiness of a `date` field value. -/
def truthyDate : Option JsDate → Bool
  | some (.str s) => !(s == "")
  | some (.obj _) => true
  | none => false

/-- JavaScript `x.toISOString().split('T')[0]`: the day part of an ISO
string. -/
def isoDay (s : String) : String :=
  (s.splitOn "T").headD ""

/-- Date normalization used for transactions
(`src/lib/services/webhooks/webhook.ts:574-578`):
`transaction.date ? (typeof transaction.date === 'string' ? transaction.date
: new Date(transaction.date).toISOString().split('T')[0])
: new Date().toISOString().split('T')[0]`. -/
def normalizeTransactionDate (now : JsDateObj) (d : Option JsDate) : String :=
  if truthyDate d then
    match d with
    | some (.str s) => s
    | some (.obj o) => isoDay o.iso
    | none => isoDay now.iso
  else
    isoDay now.iso

/-- Optional date normalization used for bills, investments and loans
(`x ? (typeof x === 'string' ? x : new Date(x).toISOString().split('T')[0])
: undefined`). -/
def normalizeOptDate (d : Option JsDate) : Option String :=
  if truthyDate d then
    match d with
    | some (.str s) => some s
    | some (.obj o) => some (isoDay o.iso)
    | none => none
  else
    none

/-- Provider-side transaction as returned by the Pluggy SDK (`any`-typed in
the source; the fields read by the mapper). -/
structure PTransaction where
  id : String
  date : Option JsDate := none
  description : Option String := none
  descriptionRaw : Option String := none
  amount : Option Int := none
  amountInAccountCurrency : Option Int := none
  balance : Option Int := none
  currencyCode : Option String := none
  category : Option String := none
  categoryId : Option String := none
  providerCode : Option String := none
  providerId : Option String := none
  status : Option String := none
  type : Option String := none
  operationType : Option String := none
  operationCategory : Option String := none
  paymentData : Option String := none
  creditCardMetadata : Option String := none
  merchant : Option String := none
deriving DecidableEq

/-- Stored transaction row (`TransactionRecord` in `src/lib/types.ts`,
as built in `upsertTransactionRecord`). -/
structure TransactionRecord where
  transaction_id : String
  account_id : String
  date : String
  description : String
  description_raw : Option String := none
  amount : Option Int := none
  amount_in_account_currency : Option Int := none
  balance : Option Int := none
  currency_code : Option String := none
  category : Option String := none
  category_id : Option String := none
  provider_code : Option String := none
  provider_id : Option String := none
  status : Option String := none
  type : Option String := none
  operation_type : Option String := none
  operation_category : Option String := none
  payment_data : Option String := none
  credit_card_metadata : Option String := none
  merchant : Option String := none
deriving DecidableEq

/-- Mapping of a provider transaction to its stored row
(`src/lib/services/webhooks/webhook.ts:573-601`). -/
def transactionRecordOf (now : JsDateObj) (t : PTransaction) (accountId : String) :
    TransactionRecord :=
  { transaction_id := t.id
    account_id := accountId
    date := normalizeTransactionDate now t.date
    description := t.description.getD ""
    description_raw := t.descriptionRaw
    amount := t.amount
    amount_in_account_currency := t.amountInAccountCurrency
    balance := t.balance
    currency_code := t.currencyCode
    category := t.category
    category_id := t.categoryId
    provider_code := t.providerCode
    provider_id := t.providerId
    status := t.status
    type := t.type
    operation_type := t.operationType
    operation_category := t.operationCategory
    payment_data := t.paymentData
    credit_card_metadata := t.creditCardMetadata
    merchant := t.merchant }

/-- Provider-side account (fields read in `syncItemData`). -/
structure PAccount where
  id : String
  type : Option String := none
  subtype : Option String := none
  number : Option String := none
  name : Option String := none
  marketingName : Option String := none
  balance : Option Int := none
  currencyCode : Option String := none
  owner : Option String := none
  taxNumber : Option String := none
  bankData : Option String := none
  creditData : Option String := none
  disaggregatedCreditLimits : Option String := none
deriving DecidableEq

/-- Stored account row (`AccountRecord`). -/
structure AccountRecord where
  item_id : String
  account_id : String
  type : Option String := none
  subtype : Option String := none
  number : Option String := none
  name : Option String := none
  marketing_name : Option String := none
  balance : Option Int := none
  currency_code : Option String := none
  owner : Option String := none
  tax_number : Option String := none
  bank_data : Option String := none
  credit_data : Option String := none
  disaggregated_credit_limits : Option String := none
deriving DecidableEq

/-- Mapping of a provider account
(`src/lib/services/webhooks/webhook.ts:241-256`). -/
def accountRecordOf (itemId : String) (a : PAccount) : AccountRecord :=
  { item_id := itemId
    account_id := a.id
    type := a.type
    subtype := a.subtype
    number := a.number
    name := a.name
    marketing_name := a.marketingName
    balance := a.balance
    currency_code := a.currencyCode
    owner := a.owner
    tax_number := a.taxNumber
    bank_data := a.bankData
    credit_data := a.creditData
    disaggregated_credit_limits := a.disaggregatedCreditLimits }

/-- Provider-side credit-card bill. -/
structure PBill where
  id : String
  dueDate : Option JsDate := none
  totalAmount : Option Int := none
  totalAmountCurrencyCode : Option String := none
  minimumPaymentAmount : Option Int := none
  allowsInstallments : Option Bool := none
  financeCharges : Option String := none
deriving DecidableEq

/-- Stored bill row (`CreditCardBillRecord`). -/
structure CreditCardBillRecord where
  bill_id : String
  account_id : String
  due_date : Option String := none
  total_amount : Option Int := none
  total_amount_currency_code : Option String := none
  minimum_payment_amount : Option Int := none
  allows_installments : Option Bool := none
  finance_charges : Option String := none
deriving DecidableEq

/-- Mapping of a provider bill
(`src/lib/services/webhooks/webhook.ts:282-295`). -/
def billRecordOf (accountId : String) (b : PBill) : CreditCardBillRecord :=
  { bill_id := b.id
    account_id := accountId
    due_date := normalizeOptDate b.dueDate
    total_amount := b.totalAmount
    total_amount_currency_code := b.totalAmountCurrencyCode
    minimum_payment_amount := b.minimumPaymentAmount
    allows_installments := b.allowsInstallments
    finance_charges := b.financeCharges }

/-- Provider-side identity resource. -/
structure PIdentity where
  id : String
  fullName : Option String := none
  companyName : Option String := none
  document : Option String := none
  documentType : Option String := none
  taxNumber : Option String := none
  jobTitle : Option String := none
  birthDate : Option JsDate := none
  addresses : Option String := none
  phoneNumbers : Option String := none
  emails : Option String := none
  relations : Option String := none
deriving DecidableEq

/-- Stored identity row (`IdentityRecord`). -/
structure IdentityRecord where
  item_id : String
  identity_id : String
  full_name : Option String := none
  company_name : Option String := none
  document : Option String := none
  document_type : Option String := none
  tax_number : Option String := none
  job_title : Option String := none
  birth_date : Option String := none
  addresses : Option String := none
  phone_numbers : Option String := none
  emails : Option String := none
  relations : Option String := none
deriving DecidableEq

/-- Provider-side investment resource. -/
structure PInvestment where
  id : String
  name : Option String := none
  code : Option String := none
  isin : Option String := none
  number : Option String := none
  owner : Option String := none
  currencyCode : Option String := none
  type : Option String := none
  subtype : Option String := none
  lastMonthRate : Option Int := none
  lastTwelveMonthsRate : Option Int := none
  annualRate : Option Int := none
  date : Option JsDate := none
  value : Option Int := none
  quantity : Option Int := none
  amount : Option Int := none
  balance : Option Int := none
  taxes : Option Int := none
  taxes2 : Option Int := none
  dueDate : Option JsDate := none
  rate : Option Int := none
  rateType : Option String := none
  fixedAnnualRate : Option Int := none
  issuer : Option String := none
  issueDate : Option JsDate := none
  amountProfit : Option Int := none
  amountWithdrawal : Option Int := none
  amountOriginal : Option Int := none
  status : Option String := none
  institution : Option String := none
  metadata : Option String := none
  providerId : Option String := none
deriving DecidableEq

/-- Stored investment row (`InvestmentRecord`). -/
structure InvestmentRecord where
  item_id : String
  investment_id : String
  name : Option String := none
  code : Option String := none
  isin : Option String := none
  number : Option String := none
  owner : Option String := none
  currency_code : Option String := none
  type : Option String := none
  subtype : Option String := none
  last_month_rate : Option Int := none
  last_twelve_months_rate : Option Int := none
  annual_rate : Option Int := none
  date : Option String := none
  value : Int := 0
  quantity : Option Int := none
  amount : Option Int := none
  balance : Option Int := none
  taxes : Option Int := none
  taxes2 : Option Int := none
  due_date : Option String := none
  rate : Option Int := none
  rate_type : Option String := none
  fixed_annual_rate : Option Int := none
  issuer : Option String := none
  issue_date : Option String := none
  amount_profit : Option Int := none
  amount_withdrawal : Option Int := none
  amount_original : Option Int := none
  status : Option String := none
  institution : Option String := none
  metadata : Option String := none
  provider_id : Option String := none
deriving DecidableEq

/-- Mapping of a provider investment
(`src/lib/services/webhooks/webhook.ts:346-380`); `value ?? 0` and
`fixedAnnualRate ?? annualRate` are nullish coalescing. -/
def investmentRecordOf (itemId : String) (v : PInvestment) : InvestmentRecord :=
  { item_id := itemId
    investment_id := v.id
    name := v.name
    code := v.code
    isin := v.isin
    number := v.number
    owner := v.owner
    currency_code := v.currencyCode
    type := v.type
    subtype := v.subtype
    last_month_rate := v.lastMonthRate
    last_twelve_months_rate := v.lastTwelveMonthsRate
    annual_rate := v.annualRate
    date := normalizeOptDate v.date
    value := v.value.getD 0
    quantity := v.quantity
    amount := v.amount
    balance := v.balance
    taxes := v.taxes
    taxes2 := v.taxes2
    due_date := normalizeOptDate v.dueDate
    rate := v.rate
    rate_type := v.rateType
    fixed_annual_rate := match v.fixedAnnualRate with
      | some x => some x
      | none => v.annualRate
    issuer := v.issuer
    issue_date := normalizeOptDate v.issueDate
    amount_profit := v.amountProfit
    amount_withdrawal := v.amountWithdrawal
    amount_original := v.amountOriginal
    status := v.status
    institution := v.institution
    metadata := v.metadata
    provider_id := v.providerId }

/-- Provider-side loan resource. -/
structure PLoan where
  id : String
  contractNumber : Option String := none
  ipocCode : Option String := none
  productName : Option String := none
  providerId : Option String := none
  type : Option String := none
  date : Option JsDate := none
  contractDate : Option JsDate := none
  disbursementDates : Option String := none
  settlementDate : Option JsDate := none
  dueDate : Option JsDate := none
  firstInstallmentDueDate : Option JsDate := none
  contractAmount : Option Int := none
  currencyCode : Option String := none
  cet : Option Int := none
  installmentPeriodicity : Option String := none
  installmentPeriodicityAdditionalInfo : Option String := none
  amortizationScheduled : Option String := none
  amortizationScheduledAdditionalInfo : Option String := none
  cnpjConsignee : Option String := none
  interestRates : Option String := none
  contractedFees : Option String := none
  contractedFinanceCharges : Option String := none
  warranties : Option String := none
  installments : Option String := none
  payments : Option String := none
deriving DecidableEq

/-- Stored loan row (`LoanRecord`). -/
structure LoanRecord where
  item_id : String
  loan_id : String
  contract_number : Option String := none
  ipoc_code : Option String := none
  product_name : Option String := none
  provider_id : Option String := none
  type : Option String := none
  date : Option String := none
  contract_date : Option String := none
  disbursement_dates : Option String := none
  settlement_date : Option String := none
  due_date : Option String := none
  first_installment_due_date : Option String := none
  contract_amount : Option Int := none
  currency_code : Option String := none
  cet : Option Int := none
  installment_periodicity : Option String := none
  installment_periodicity_additional_info : Option String := none
  amortization_scheduled : Option String := none
  amortization_scheduled_additional_info : Option String := none
  cnpj_consignee : Option String := none
  interest_rates : Option String := none
  contracted_fees : Option String := none
  contracted_finance_charges : Option String := none
  warranties : Option String := none
  installments : Option String := none
  payments : Option String := none
deriving DecidableEq

/-- Mapping of a provider loan
(`src/lib/services/webhooks/webhook.ts:398-446`). -/
def loanRecordOf (itemId : String) (l : PLoan) : LoanRecord :=
  { item_id := itemId
    loan_id := l.id
    contract_number := l.contractNumber
    ipoc_code := l.ipocCode
    product_name := l.productName
    provider_id := l.providerId
    type := l.type
    date := normalizeOptDate l.date
    contract_date := normalizeOptDate l.contractDate
    disbursement_dates := l.disbursementDates
    settlement_date := normalizeOptDate l.settlementDate
    due_date := normalizeOptDate l.dueDate
    first_installment_due_date := normalizeOptDate l.firstInstallmentDueDate
    contract_amount := l.contractAmount
    currency_code := l.currencyCode
    cet := l.cet
    installment_periodicity := l.installmentPeriodicity
    installment_periodicity_additional_info := l.installmentPeriodicityAdditionalInfo
    amortization_scheduled := l.amortizationScheduled
    amortization_scheduled_additional_info := l.amortizationScheduledAdditionalInfo
    cnpj_consignee := l.cnpjConsignee
    interest_rates := l.interestRates
    contracted_fees := l.contractedFees
    contracted_finance_charges := l.contractedFinanceCharges
    warranties := l.warranties
    installments := l.installments
    payments := l.payments }

/-- Connector metadata nested in a provider item (the source reads both
camelCase and snake_case variants off the `any`-typed object). -/
structure PConnector where
  id : Option Int := none
  name : Option String := none
  imageUrl : Option String := none
  image_url : Option String := none
  url : Option String := none
  website : Option String := none
  primaryColor : Option String := none
  primary_color : Option String := none
  secondaryColor : Option String := none
  secondary_color : Option String := none
deriving DecidableEq

/-- Provider-side item resource. -/
structure PItem where
  id : String
  userId : Option String := none
  connector : Option PConnector := none
  connectorId : Option Int := none
  connectorName : Option String := none
  connectorImageUrl : Option String := none
  status : Option String := none
  createdAt : Option String := none
  updatedAt : Option String := none
  lastUpdatedAt : Option String := none
  webhookUrl : Option String := none
  webhook_url : Option String := none
  parameters : Option String := none
  institutionName : Option String := none
  institutionUrl : Option String := none
  primaryColor : Option String := none
  secondaryColor : Option String := none
deriving DecidableEq

/-- Stored item row (`PluggyItemRecord`). -/
structure PluggyItemRecord where
  item_id : String
  user_id : Option String := none
  connector_id : Option String := none
  connector_name : Option String := none
  connector_image_url : Option String := none
  status : Option String := none
  created_at : Option String := none
  updated_at : Option String := none
  last_updated_at : Option String := none
  webhook_url : Option String := none
  parameters : Option String := none
  institution_name : Option String := none
  institution_url : Option String := none
  primary_color : Option String := none
  secondary_color : Option String := none
deriving DecidableEq

/-- Webhook payload envelope: one JS object whose optional fields the
per-event handlers pick out (`src/lib/types.ts`). -/
structure WebhookPayload where
  event : String
  eventId : Option String := none
  itemId : Option String := none
  id : Option String := none
  clientUserId : Option String := none
  accountId : Option String := none
  transactionIds : Option (List String) := none
  connectorId : Option String := none
deriving DecidableEq

/-- Mapping of a fetched item to its stored row
(`src/lib/services/webhooks/webhook.ts:122-141`). -/
def itemRecordOf (payload : WebhookPayload) (item : PItem) : PluggyItemRecord :=
  let connector := item.connector.getD {}
  { item_id := item.id
    user_id := jsOrStr (jsOrStr item.userId payload.clientUserId) none
    connector_id :=
      if truthyInt connector.id then connector.id.map (fun n => toString n)
      else item.connectorId.map (fun n => toString n)
    connector_name := jsOrStr connector.name item.connectorName
    connector_image_url :=
      jsOrStr (jsOrStr connector.imageUrl connector.image_url) item.connectorImageUrl
    status := item.status
    created_at := item.createdAt
    updated_at := item.updatedAt
    last_updated_at := item.lastUpdatedAt
    webhook_url := jsOrStr item.webhookUrl item.webhook_url
    parameters := item.parameters
    institution_name := jsOrStr (jsOrStr connector.name item.connectorName) item.institutionName
    institution_url := jsOrStr (jsOrStr connector.url connector.website) item.institutionUrl
    primary_color := jsOrStr (jsOrStr connector.primaryColor connector.primary_color) item.primaryColor
    secondary_color := jsOrStr (jsOrStr connector.secondaryColor connector.secondary_color) item.secondaryColor }

/-- Keyed association-list insert-or-replace: the model of a supabase
`upsert` with an `onConflict` natural key. -/
def putKey {α : Type} (k : String) (v : α) : List (String × α) → List (String × α)
  | [] => [(k, v)]
  | (k', v') :: rest => if k' = k then (k, v) :: rest else (k', v') :: putKey k v rest

/-- Keyed association-list lookup. -/
def getKey {α : Type} (k : String) : List (String × α) → Option α
  | [] => none
  | (k', v) :: rest => if k' = k then some v else getKey k rest

/-- Keyed delete of one key (`delete().eq(key, id)`). -/
def delKey {α : Type} (k : String) (l : List (String × α)) : List (String × α) :=
  l.filter (fun p => !(p.1 == k))

/-- Keyed batch delete (`delete().in(key, ids)`). -/
def delKeys {α : Type} (ks : List String) (l : List (String × α)) : List (String × α) :=
  l.filter (fun p => !(ks.contains p.1))

/-- The relational store: one keyed collection per entity family, each
keyed by its natural key (§3 of the data model, mirrored from the service
sources). -/
structure Store where
  items : List (String × PluggyItemRecord) := []
  accounts : List (String × AccountRecord) := []
  transactions : List (String × TransactionRecord) := []
  bills : List (String × CreditCardBillRecord) := []
  identities : List (String × IdentityRecord) := []
  investments : List (String × InvestmentRecord) := []
  loans : List (String × LoanRecord) := []
deriving DecidableEq

/-- Observable effects: provider fetches, persistence calls and
`console.error` logs. -/
inductive Eff where
  | fetchItem (itemId : String)
  | fetchAccounts (itemId : String)
  | fetchTransactions (accountId : String)
  | fetchBills (accountId : String)
  | fetchIdentity (itemId : String)
  | fetchInvestments (itemId : String)
  | fetchLoans (itemId : String)
  | fetchInvestmentTransactions (investmentId : String)
  | upsertItem (r : PluggyItemRecord)
  | upsertAccounts (rs : List AccountRecord)
  | upsertTransaction (r : TransactionRecord)
  | upsertBill (r : CreditCardBillRecord)
  | upsertIdentity (r : IdentityRecord)
  | upsertInvestment (r : InvestmentRecord)
  | upsertLoan (r : LoanRecord)
  | deleteTransactions (ids : List String)
  | deleteItem (itemId : String)
  | logError (msg : String)
deriving DecidableEq

/-- Whether an effect is a `console.error` log (not a persistence or
provider call). -/
def Eff.isLog : Eff → Bool
  | .logError _ => true
  | _ => false

/-- Whether an effect is a per-investment transaction fetch. -/
def Eff.isInvTxFetch : Eff → Bool
  | .fetchInvestmentTransactions _ => true
  | _ => false

/-- An error value: the message carried by a thrown `Error`, plus the
`response?.status` field when the error came from an HTTP client. -/
structure Err where
  message : String
  status : Option Nat := none
deriving DecidableEq

/-- Execution state: the datastore contents plus the trace of effects
performed so far. -/
structure St where
  store : Store := {}
  trace : List Eff := []
deriving DecidableEq

/-- Record an effect in the trace. -/
def pushEff (s : St) (e : Eff) : St :=
  { s with trace := s.trace ++ [e] }

/-- Record a `console.error` log. -/
def logErr (s : St) (msg : String) : St :=
  pushEff s (.logError msg)

/-- Environment of oracles: the configured credentials, the clock, the
provider fetch endpoints (each returning data or a thrown error) and a
backend-failure injector for persistence calls (`none` = the call
succeeds). -/
structure Env where
  hasCredentials : Bool
  now : JsDateObj
  dateOfString : String → JsDateObj
  fetchItem : String → Except Err PItem
  fetchAccounts : String → Except Err (List PAccount)
  fetchAllTransactions : String → Except Err (List PTransaction)
  fetchCreditCardBills : String → Except Err (List PBill)
  fetchIdentity : String → Except Err (Option PIdentity)
  fetchInvestments : String → Except Err (List PInvestment)
  fetchLoans : String → Except Err (List PLoan)
  dbError : Eff → Option String

/-- Identity mapping (`src/lib/services/webhooks/webhook.ts:315-329`):
`birth_date` is `identity.birthDate ? new Date(identity.birthDate).toISOString()
: undefined`, so a string birth date is re-parsed through the `Date`
constructor supplied by the environment. -/
def identityRecordOf (env : Env) (itemId : String) (i : PIdentity) : IdentityRecord :=
  { item_id := itemId
    identity_id := i.id
    full_name := i.fullName
    company_name := i.companyName
    document := i.document
    document_type := i.documentType
    tax_number := i.taxNumber
    job_title := i.jobTitle
    birth_date :=
      if truthyDate i.birthDate then
        match i.birthDate with
        | some (.str s) => some (env.dateOfString s).iso
        | some (.obj o) => some o.iso
        | none => none
      else none
    addresses := i.addresses
    phone_numbers := i.phoneNumbers
    emails := i.emails
    relations := i.relations }

namespace transactionsService

/-- Persistence-gateway upsert of one transaction keyed by
`transaction_id` (`src/unnamed/part_006:5-23`): the row is inserted or
overwritten on conflict; a backend error is wrapped and thrown. -/
def upsertTransaction (env : Env) (r : TransactionRecord) (s : St) :
    St × Except Err TransactionRecord :=
  let op := Eff.upsertTransaction r
  let s1 := pushEff s op
  match env.dbError op with
  | none =>
      ({ s1 with store := { s1.store with
          transactions := putKey r.transaction_id r s1.store.transactions } }, .ok r)
  | some m => (s1, .error { message := "Failed to upsert transaction: " ++ m })

/-- Batch delete by natural key (`src/unnamed/part_006:109-119`):
`delete().in("transaction_id", transactionIds)`. -/
def deleteMultipleTransactions (env : Env) (ids : List String) (s : St) :
    St × Except Err Unit :=
  let op := Eff.deleteTransactions ids
  let s1 := pushEff s op
  match env.dbError op with
  | none =>
      ({ s1 with store := { s1.store with
          transactions := delKeys ids s1.store.transactions } }, .ok ())
  | some m => (s1, .error { message := "Failed to delete transactions: " ++ m })

end transactionsService

namespace accountsService

/-- Per-account upsert keyed by `account_id` (`src/unnamed/part_000:23-39`). -/
def upsertAccount (env : Env) (r : AccountRecord) (s : St) :
    St × Except Err AccountRecord :=
  let op := Eff.upsertAccounts [r]
  let s1 := pushEff s op
  match env.dbError op with
  | none =>
      ({ s1 with store := { s1.store with
          accounts := putKey r.account_id r s1.store.accounts } }, .ok r)
  | some m => (s1, .error { message := "Failed to upsert account: " ++ m })

/-- Modelled from the spec: `accountsService.upsertMultipleAccounts` is
called by the sync orchestrator but its definition is not among the source
files; per §4.2 it is the batched upsert variant keyed by `account_id`
(one backend call, all-or-nothing, wrapped error on failure). -/
def upsertMultipleAccounts (env : Env) (rs : List AccountRecord) (s : St) :
    St × Except Err (List AccountRecord) :=
  let op := Eff.upsertAccounts rs
  let s1 := pushEff s op
  match env.dbError op with
  | none =>
      ({ s1 with store := { s1.store with
          accounts := rs.foldl (fun acc r => putKey r.account_id r acc) s1.store.accounts } },
        .ok rs)
  | some m => (s1, .error { message := "Failed to upsert accounts: " ++ m })

end accountsService

namespace itemsService

/-- Item upsert keyed by `item_id` (`src/unnamed/part_007:5-28`). -/
def upsertItem (env : Env) (r : PluggyItemRecord) (s : St) :
    St × Except Err PluggyItemRecord :=
  let op := Eff.upsertItem r
  let s1 := pushEff s op
  match env.dbError op with
  | none =>
      ({ s1 with store := { s1.store with
          items := putKey r.item_id r s1.store.items } }, .ok r)
  | some m => (s1, .error { message := "Failed to upsert item: " ++ m })

/-- Item delete keyed by `item_id` (`src/unnamed/part_007:99-109`):
`delete().eq("item_id", itemId)`, wrapped error on backend failure. -/
def deleteItem (env : Env) (itemId : String) (s : St) : St × Except Err Unit :=
  let op := Eff.deleteItem itemId
  let s1 := pushEff s op
  match env.dbError op with
  | none =>
      ({ s1 with store := { s1.store with
          items := delKey itemId s1.store.items } }, .ok ())
  | some m => (s1, .error { message := "Failed to delete item: " ++ m })

end itemsService

namespace identityService

/-- Identity upsert keyed by `identity_id`
(`src/lib/services/identity.ts:5-21`). -/
def upsertIdentity (env : Env) (r : IdentityRecord) (s : St) :
    St × Except Err IdentityRecord :=
  let op := Eff.upsertIdentity r
  let s1 := pushEff s op
  match env.dbError op with
  | none =>
      ({ s1 with store := { s1.store with
          identities := putKey r.identity_id r s1.store.identities } }, .ok r)
  | some m => (s1, .error { message := "Failed to upsert identity: " ++ m })

end identityService

namespace investmentsService

/-- Modelled from the spec: `investmentsService.upsertInvestment` is called
by the sync orchestrator but only an `upsertInvestiment` variant appears in
the source files; per §4.2 it is the upsert keyed by `investment_id` with a
wrapped error on failure (identical in shape to the present variant). -/
def upsertInvestment (env : Env) (r : InvestmentRecord) (s : St) :
    St × Except Err InvestmentRecord :=
  let op := Eff.upsertInvestment r
  let s1 := pushEff s op
  match env.dbError op with
  | none =>
      ({ s1 with store := { s1.store with
          investments := putKey r.investment_id r s1.store.investments } }, .ok r)
  | some m => (s1, .error { message := "Failed to upsert investment: " ++ m })

end investmentsService

namespace loansService

/-- Modelled from the spec: `loansService.upsertLoan` is called by the sync
orchestrator while the source files define `upsertLoans`
(`src/lib/services/loans.ts:5-21`) with the same body; it is the upsert
keyed by `loan_id` with a wrapped error on failure. -/
def upsertLoan (env : Env) (r : LoanRecord) (s : St) : St × Except Err LoanRecord :=
  let op := Eff.upsertLoan r
  let s1 := pushEff s op
  match env.dbError op with
  | none =>
      ({ s1 with store := { s1.store with
          loans := putKey r.loan_id r s1.store.loans } }, .ok r)
  | some m => (s1, .error { message := "Failed to upsert loan: " ++ m })

end loansService

namespace creditCardBillsService

/-- Bill upsert keyed by `bill_id` (`src/unnamed/part_005:5-24`). -/
def upsertBill (env : Env) (r : CreditCardBillRecord) (s : St) :
    St × Except Err CreditCardBillRecord :=
  let op := Eff.upsertBill r
  let s1 := pushEff s op
  match env.dbError op with
  | none =>
      ({ s1 with store := { s1.store with
          bills := putKey r.bill_id r s1.store.bills } }, .ok r)
  | some m => (s1, .error { message := "Failed to upsert bill: " ++ m })

end creditCardBillsService

/-- Helper to upsert one fetched transaction
(`src/lib/services/webhooks/webhook.ts:573-604`): build the record and call
the transactions service. -/
def upsertTransactionRecord (env : Env) (t : PTransaction) (accountId : String) (s : St) :
    St × Except Err TransactionRecord :=
  transactionsService.upsertTransaction env (transactionRecordOf env.now t accountId) s

/-- Sequential `for`-loop upserting fetched transactions; a thrown upsert
error aborts the remainder of the loop (the caller's `try` decides what
happens next). -/
def upsertTxLoop (env : Env) (accountId : String) :
    List PTransaction → St → St × Except Err Unit
  | [], s => (s, .ok ())
  | t :: rest, s =>
    match upsertTransactionRecord env t accountId s with
    | (s1, .ok _) => upsertTxLoop env accountId rest s1
    | (s1, .error e) => (s1, .error e)

/-- Sequential `for`-loop upserting fetched bills
(`src/lib/services/webhooks/webhook.ts:281-298`). -/
def upsertBillsLoop (env : Env) (accountId : String) :
    List PBill → St → St × Except Err Unit
  | [], s => (s, .ok ())
  | b :: rest, s =>
    match creditCardBillsService.upsertBill env (billRecordOf accountId b) s with
    | (s1, .ok _) => upsertBillsLoop env accountId rest s1
    | (s1, .error e) => (s1, .error e)

/-- Sequential `for`-loop upserting fetched investments
(`src/lib/services/webhooks/webhook.ts:345-383`). -/
def upsertInvestmentsLoop (env : Env) (itemId : String) :
    List PInvestment → St → St × Except Err Unit
  | [], s => (s, .ok ())
  | v :: rest, s =>
    match investmentsService.upsertInvestment env (investmentRecordOf itemId v) s with
    | (s1, .ok _) => upsertInvestmentsLoop env itemId rest s1
    | (s1, .error e) => (s1, .error e)

/-- Sequential `for`-loop upserting fetched loans
(`src/lib/services/webhooks/webhook.ts:397-449`). -/
def upsertLoansLoop (env : Env) (itemId : String) :
    List PLoan → St → St × Except Err Unit
  | [], s => (s, .ok ())
  | l :: rest, s =>
    match loansService.upsertLoan env (loanRecordOf itemId l) s with
    | (s1, .ok _) => upsertLoansLoop env itemId rest s1
    | (s1, .error e) => (s1, .error e)

/-- Transactions sub-step of the per-account sync loop
(`src/lib/services/webhooks/webhook.ts:262-273`): fetch all transactions,
upsert each; any error is caught and logged, so the sub-step is total. -/
def syncAccountTx (env : Env) (a : PAccount) (s : St) : St :=
  let s1 := pushEff s (.fetchTransactions a.id)
  match env.fetchAllTransactions a.id with
  | .error _ => logErr s1 ("Error syncing transactions for account " ++ a.id)
  | .ok ts =>
    if ts.length > 0 then
      match upsertTxLoop env a.id ts s1 with
      | (s2, .ok _) => s2
      | (s2, .error _) => logErr s2 ("Error syncing transactions for account " ++ a.id)
    else s1

/-- Bills sub-step of the per-account sync loop
(`src/lib/services/webhooks/webhook.ts:276-303`): only for accounts of type
`CREDIT`; any error is caught and logged. -/
def syncAccountBills (env : Env) (a : PAccount) (s : St) : St :=
  if a.type == some "CREDIT" then
    let s1 := pushEff s (.fetchBills a.id)
    match env.fetchCreditCardBills a.id with
    | .error _ => logErr s1 ("Error syncing bills for account " ++ a.id)
    | .ok bills =>
      if bills.length > 0 then
        match upsertBillsLoop env a.id bills s1 with
        | (s2, .ok _) => s2
        | (s2, .error _) => logErr s2 ("Error syncing bills for account " ++ a.id)
      else s1
  else s

/-- One iteration of the per-account sync loop
(`src/lib/services/webhooks/webhook.ts:261-304`). -/
def syncAccountLoopBody (env : Env) (a : PAccount) (s : St) : St :=
  syncAccountBills env a (syncAccountTx env a s)

/-- The per-account sync loop. -/
def syncAccountsLoop (env : Env) : List PAccount → St → St
  | [], s => s
  | a :: rest, s => syncAccountsLoop env rest (syncAccountLoopBody env a s)

/-- Accounts step of the sync pass
(`src/lib/services/webhooks/webhook.ts:237-308`): fetch accounts, batch
upsert, then run the per-account loop; any error escaping the batch upsert
or the fetch is caught and logged. -/
def syncAccountsStep (env : Env) (itemId : String) (s : St) : St :=
  let s1 := pushEff s (.fetchAccounts itemId)
  match env.fetchAccounts itemId with
  | .error _ => logErr s1 ("Error syncing accounts for item " ++ itemId)
  | .ok accounts =>
    if accounts.length > 0 then
      match accountsService.upsertMultipleAccounts env
          (accounts.map (accountRecordOf itemId)) s1 with
      | (s2, .ok _) => syncAccountsLoop env accounts s2
      | (s2, .error _) => logErr s2 ("Error syncing accounts for item " ++ itemId)
    else s1

/-- Identity step of the sync pass
(`src/lib/services/webhooks/webhook.ts:310-338`): a 404-equivalent error is
swallowed silently; any other error is caught and logged. -/
def syncIdentityStep (env : Env) (itemId : String) (s : St) : St :=
  let s1 := pushEff s (.fetchIdentity itemId)
  match env.fetchIdentity itemId with
  | .error e =>
      if e.status = some 404 then s1
      else logErr s1 ("Error syncing identity for item " ++ itemId)
  | .ok none => s1
  | .ok (some ident) =>
    match identityService.upsertIdentity env (identityRecordOf env itemId ident) s1 with
    | (s2, .ok _) => s2
    | (s2, .error e) =>
        if e.status = some 404 then s2
        else logErr s2 ("Error syncing identity for item " ++ itemId)

/-- Investments step of the sync pass
(`src/lib/services/webhooks/webhook.ts:340-390`): fetch investments and
upsert each mapped record; a 404-equivalent error is swallowed silently;
any other error is caught and logged. -/
def syncInvestmentsStep (env : Env) (itemId : String) (s : St) : St :=
  let s1 := pushEff s (.fetchInvestments itemId)
  match env.fetchInvestments itemId with
  | .error e =>
      if e.status = some 404 then s1
      else logErr s1 ("Error syncing investments for item " ++ itemId)
  | .ok invs =>
    if invs.length > 0 then
      match upsertInvestmentsLoop env itemId invs s1 with
      | (s2, .ok _) => s2
      | (s2, .error e) =>
          if e.status = some 404 then s2
          else logErr s2 ("Error syncing investments for item " ++ itemId)
    else s1

/-- Loans step of the sync pass
(`src/lib/services/webhooks/webhook.ts:392-456`). -/
def syncLoansStep (env : Env) (itemId : String) (s : St) : St :=
  let s1 := pushEff s (.fetchLoans itemId)
  match env.fetchLoans itemId with
  | .error e =>
      if e.status = some 404 then s1
      else logErr s1 ("Error syncing loans for item " ++ itemId)
  | .ok loans =>
    if loans.length > 0 then
      match upsertLoansLoop env itemId loans s1 with
      | (s2, .ok _) => s2
      | (s2, .error e) =>
          if e.status = some 404 then s2
          else logErr s2 ("Error syncing loans for item " ++ itemId)
    else s1

/-- The sync orchestrator (`src/lib/services/webhooks/webhook.ts:227-461`):
guarded by the credential probe, then the four independently-wrapped steps.
Every step catches its own errors, so the orchestrator is a total state
transformer. -/
def syncItemData (env : Env) (itemId : String) (s : St) : St :=
  if !env.hasCredentials then
    logErr s "Missing Pluggy credentials, cannot sync item data"
  else
    syncLoansStep env itemId
      (syncInvestmentsStep env itemId
        (syncIdentityStep env itemId
          (syncAccountsStep env itemId s)))

/-- Handler for `item/created`, `item/updated` and `item/login_succeeded`
(`src/lib/services/webhooks/webhook.ts:102-162`): fetch the item, upsert
it, then run the sync pass; fetch/upsert errors are logged and rethrown,
sync errors are caught and logged. -/
def handleItemEvent (env : Env) (p : WebhookPayload) (s : St) : St × Except Err Unit :=
  if !env.hasCredentials then
    (logErr s "Missing Pluggy credentials, cannot fetch item data", .ok ())
  else
    let iid := jsOrStr p.itemId p.id
    if !(truthyStr iid) then
      (logErr s "Missing itemId in webhook payload", .ok ())
    else
      let itemId := iid.getD ""
      let s1 := pushEff s (.fetchItem itemId)
      match env.fetchItem itemId with
      | .error e =>
          (logErr s1 ("Error handling item event for " ++ itemId), .error e)
      | .ok item =>
        match itemsService.upsertItem env (itemRecordOf p item) s1 with
        | (s2, .error e) =>
            (logErr (logErr s2 ("Failed to upsert item " ++ itemId))
              ("Error handling item event for " ++ itemId), .error e)
        | (s2, .ok _) =>
          if p.event == "item/created" || p.event == "item/updated"
              || p.event == "item/login_succeeded" then
            (syncItemData env itemId s2, .ok ())
          else (s2, .ok ())

/-- Handler for `item/deleted`
(`src/lib/services/webhooks/webhook.ts:164-179`): delete the item by key;
a backend error is logged and rethrown unless its message carries the
"no rows" code `PGRST116`. -/
def handleItemDeleted (env : Env) (p : WebhookPayload) (s : St) : St × Except Err Unit :=
  let iid := jsOrStr p.itemId p.id
  if !(truthyStr iid) then
    (logErr s "Missing itemId in webhook payload", .ok ())
  else
    let itemId := iid.getD ""
    match itemsService.deleteItem env itemId s with
    | (s1, .ok _) => (s1, .ok ())
    | (s1, .error e) =>
        let s2 := logErr s1 ("Error deleting item " ++ itemId)
        if jsIncludes e.message "PGRST116" then (s2, .ok ()) else (s2, .error e)

/-- Handler for `item/error` and `item/waiting_user_input`
(`src/lib/services/webhooks/webhook.ts:181-225`): status refresh only, no
sync pass. -/
def handleItemStatusEvent (env : Env) (p : WebhookPayload) (s : St) :
    St × Except Err Unit :=
  let iid := jsOrStr p.itemId p.id
  if !(truthyStr iid) then
    (logErr s "Missing itemId in webhook payload", .ok ())
  else if !env.hasCredentials then
    (logErr s "Missing Pluggy credentials, cannot fetch item data", .ok ())
  else
    let itemId := iid.getD ""
    let s1 := pushEff s (.fetchItem itemId)
    match env.fetchItem itemId with
    | .error e =>
        (logErr s1 ("Error handling item status event for " ++ itemId), .error e)
    | .ok item =>
      match itemsService.upsertItem env (itemRecordOf p item) s1 with
      | (s2, .ok _) => (s2, .ok ())
      | (s2, .error e) =>
          (logErr s2 ("Error handling item status event for " ++ itemId), .error e)

/-- The filter applied to a fetched transaction list
(`src/lib/services/webhooks/webhook.ts:485-487`): keep the transactions
whose id is listed when a non-empty `transactionIds` was given, else all. -/
def filterToProcess (txIds : Option (List String)) (ts : List PTransaction) :
    List PTransaction :=
  match txIds with
  | some ids =>
    if ids.length > 0 then ts.filter (fun t => ids.contains t.id)
    else ts
  | none => ts

/-- Per-account fan-out of the no-`accountId` branch of the
`transactions/created` handler
(`src/lib/services/webhooks/webhook.ts:498-514`): each account's fetch,
filter and upserts run under their own `try`, so one failure is logged and
does not stop the remaining accounts. -/
def txFanoutLoop (env : Env) (txIds : Option (List String)) :
    List PAccount → St → St
  | [], s => s
  | a :: rest, s =>
    let s1 := pushEff s (.fetchTransactions a.id)
    let s2 :=
      match env.fetchAllTransactions a.id with
      | .error _ => logErr s1 ("Error fetching transactions for account " ++ a.id)
      | .ok allTransactions =>
        let toProcess := filterToProcess txIds allTransactions
        if toProcess.length > 0 then
          match upsertTxLoop env a.id toProcess s1 with
          | (s3, .ok _) => s3
          | (s3, .error _) =>
              logErr s3 ("Error fetching transactions for account " ++ a.id)
        else s1
    txFanoutLoop env txIds rest s2

/-- Handler for `transactions/created`
(`src/lib/services/webhooks/webhook.ts:469-520`): with an `accountId`,
fetch that account's transactions, keep those whose id is among
`transactionIds` when a non-empty list was given, and upsert each;
otherwise fan out over the item's accounts with per-account error
isolation. -/
def handleTransactionsCreated (env : Env) (p : WebhookPayload) (s : St) :
    St × Except Err Unit :=
  if !env.hasCredentials then
    (logErr s "Missing Pluggy credentials, cannot fetch transactions", .ok ())
  else if truthyStr p.accountId then
    let accountId := p.accountId.getD ""
    let s1 := pushEff s (.fetchTransactions accountId)
    match env.fetchAllTransactions accountId with
    | .error e => (logErr s1 "Error handling transactions created event:", .error e)
    | .ok allTransactions =>
      let toProcess := filterToProcess p.transactionIds allTransactions
      if toProcess.length > 0 then
        match upsertTxLoop env accountId toProcess s1 with
        | (s2, .ok _) => (s2, .ok ())
        | (s2, .error e) =>
            (logErr s2 "Error handling transactions created event:", .error e)
      else (s1, .ok ())
  else if truthyStr p.itemId then
    let itemId := p.itemId.getD ""
    let s1 := pushEff s (.fetchAccounts itemId)
    match env.fetchAccounts itemId with
    | .error e => (logErr s1 "Error handling transactions created event:", .error e)
    | .ok accounts => (txFanoutLoop env p.transactionIds accounts s1, .ok ())
  else (s, .ok ())

/-- Handler for `transactions/updated`
(`src/lib/services/webhooks/webhook.ts:522-525`): same logic as
`transactions/created` since both idempotently upsert. -/
def handleTransactionsUpdated (env : Env) (p : WebhookPayload) (s : St) :
    St × Except Err Unit :=
  handleTransactionsCreated env p s

/-- Handler for `transactions/deleted`
(`src/lib/services/webhooks/webhook.ts:527-540`): a missing or empty id
list is a no-op; otherwise the ids are batch-deleted, with a backend error
logged and rethrown. -/
def handleTransactionsDeleted (env : Env) (p : WebhookPayload) (s : St) :
    St × Except Err Unit :=
  match p.transactionIds with
  | none => (s, .ok ())
  | some ids =>
    if ids.length = 0 then (s, .ok ())
    else
      match transactionsService.deleteMultipleTransactions env ids s with
      | (s1, .ok _) => (s1, .ok ())
      | (s1, .error e) =>
          (logErr s1 "Error handling transactions deleted event:", .error e)

/-- The event dispatcher's `switch`
(`src/lib/services/webhooks/webhook.ts:30-95`): connector, payment and
unknown events only log, which the trace does not record. -/
def dispatchEvent (env : Env) (p : WebhookPayload) (s : St) : St × Except Err Unit :=
  if p.event == "item/created" || p.event == "item/updated"
      || p.event == "item/login_succeeded" then
    handleItemEvent env p s
  else if p.event == "item/deleted" then
    handleItemDeleted env p s
  else if p.event == "item/error" || p.event == "item/waiting_user_input" then
    handleItemStatusEvent env p s
  else if p.event == "connector/status_updated" then
    (s, .ok ())
  else if p.event == "transactions/created" then
    handleTransactionsCreated env p s
  else if p.event == "transactions/updated" then
    handleTransactionsUpdated env p s
  else if p.event == "transactions/deleted" then
    handleTransactionsDeleted env p s
  else
    (s, .ok ())

/-- The webhook dispatcher (`src/lib/services/webhooks/webhook.ts:28-100`):
the whole `switch` sits inside a `try` whose `catch` logs and absorbs any
handler error, so processing always returns normally. -/
def processWebhookEvent (env : Env) (p : WebhookPayload) (s : St) :
    St × Except Err Unit :=
  match dispatchEvent env p s with
  | (s1, .ok _) => (s1, .ok ())
  | (s1, .error _) =>
      (logErr s1 ("Error processing webhook event " ++ p.event), .ok ())

/-- A state transformer only ever appends to the effect trace. -/
def TraceMono (f : St → St) : Prop :=
  ∀ s : St, ∃ tl : List Eff, (f s).trace = s.trace ++ tl

/-- A fixed clock used by the concrete scenarios below. -/
def dayNow : JsDateObj := ⟨"2025-06-30T10:00:00.000Z"⟩

/-- A benign environment: credentials configured, every fetch succeeds with
an empty result, the backend never fails. -/
def envOk : Env :=
  { hasCredentials := true
    now := dayNow
    dateOfString := fun s => ⟨s⟩
    fetchItem := fun _ => .error { message := "no item fixture" }
    fetchAccounts := fun _ => .ok []
    fetchAllTransactions := fun _ => .ok []
    fetchCreditCardBills := fun _ => .ok []
    fetchIdentity := fun _ => .ok none
    fetchInvestments := fun _ => .ok []
    fetchLoans := fun _ => .ok []
    dbError := fun _ => none }

/-- Concrete transaction row used to exercise the upsert contract. -/
def rowT1 : TransactionRecord :=
  { transaction_id := "T1", account_id := "AC1", date := "2024-03-05"
    description := "coffee", amount := some (-12) }

/-- A second version of the same row with different non-key values. -/
def rowT1v2 : TransactionRecord :=
  { transaction_id := "T1", account_id := "AC1", date := "2024-03-06"
    description := "coffee fixed", amount := some (-13) }

/-- Concrete account row used to exercise the upsert contract. -/
def rowA1 : AccountRecord :=
  { item_id := "IT1", account_id := "AC1", type := some "BANK" }

/-- A provider-side 404-equivalent error. -/
def err404 : Err := { message := "Request failed with status code 404", status := some 404 }

/-- A provider-side network error (no HTTP status). -/
def errNet : Err := { message := "network error" }

/-- Credit account whose transaction fetch will fail in the isolation
scenario. -/
def accA : PAccount := { id := "A", type := some "CREDIT" }

/-- Second, healthy account of the isolation scenario. -/
def accB : PAccount := { id := "B", type := some "BANK" }

/-- The healthy account's only transaction. -/
def txB1 : PTransaction := { id := "TB1", description := some "ok" }

/-- The credit account's only bill. -/
def billA1 : PBill := { id := "BILL1", totalAmount := some 100 }

/-- Environment of the failure-isolation scenario: two accounts, the
transaction fetch for account `A` raises, everything else succeeds. -/
def envW3 : Env :=
  { envOk with
    fetchAccounts := fun _ => .ok [accA, accB]
    fetchAllTransactions := fun aid => if aid = "A" then .error errNet else .ok [txB1]
    fetchCreditCardBills := fun _ => .ok [billA1]
    fetchIdentity := fun _ => .error err404 }

/-- Environment whose identity, investments and loans fetches all return a
404-equivalent error. -/
def envW7 : Env :=
  { envOk with
    fetchIdentity := fun _ => .error err404
    fetchInvestments := fun _ => .error err404
    fetchLoans := fun _ => .error err404 }

/-- Fetched transactions of the filtering scenario. -/
def txT1 : PTransaction := { id := "T1", date := some (.str "2024-03-01") }

/-- Second fetched transaction of the filtering scenario. -/
def txT2 : PTransaction := { id := "T2", date := some (.str "2024-03-02") }

/-- Third fetched transaction, absent from the webhook's id list. -/
def txT3 : PTransaction := { id := "T3", date := some (.str "2024-03-03") }

/-- Environment of the filtering scenario: account `AC1` has three
transactions. -/
def envW5 : Env :=
  { envOk with fetchAllTransactions := fun _ => .ok [txT1, txT2, txT3] }

/-- The `transactions/created` payload of end-to-end scenario B. -/
def payloadW5 : WebhookPayload :=
  { event := "transactions/created", itemId := some "IT1", accountId := some "AC1"
    transactionIds := some ["T1", "T2"] }

/-- A `transactions/updated` payload. -/
def payloadW6 : WebhookPayload :=
  { event := "transactions/updated", itemId := some "IT1", accountId := some "AC1"
    transactionIds := some ["T1", "T2"] }

/-- The single investment of the investments-step scenario. -/
def invW8 : PInvestment := { id := "INV1", name := some "CDB", value := some 1000 }

/-- Environment whose investments fetch returns one investment. -/
def envW8 : Env :=
  { envOk with fetchInvestments := fun _ => .ok [invW8] }

/-- A `transactions/deleted` payload naming one transaction. -/
def payloadW9 : WebhookPayload :=
  { event := "transactions/deleted", transactionIds := some ["T1"] }

/-- A `transactions/deleted` payload with an empty id list. -/
def payloadW9e : WebhookPayload :=
  { event := "transactions/deleted", transactionIds := some [] }

/-- Initial state of the deletion scenarios: the store already holds
transaction `T1` and a second transaction `T9`. -/
def stW9 : St :=
  { store := { transactions := [("T1", rowT1), ("T9", { rowT1 with transaction_id := "T9" })] } }

/-- An `item/deleted` payload. -/
def payloadW10 : WebhookPayload :=
  { event := "item/deleted", itemId := some "IT1" }

/-- Initial state of the item-deletion scenario: the store holds item
`IT1`, one account and one transaction. -/
def stW10 : St :=
  { store :=
    { items := [("IT1", { item_id := "IT1" })]
      accounts := [("AC1", rowA1)]
      transactions := [("T1", rowT1)] } }

theorem getKey_putKey_self {α : Type} (k : String) (v : α) (l : List (String × α)) :
    getKey k (putKey k v l) = some v := by
  induction l with
  | nil => simp [putKey, getKey]
  | cons hd tl ih =>
    by_cases h : hd.1 = k
    · simp [putKey, getKey, h]
    · simp [putKey, getKey, h, ih]

theorem getKey_putKey_ne {α : Type} {k k' : String} (v : α) (l : List (String × α))
    (h : k' ≠ k) : getKey k' (putKey k v l) = getKey k' l := by
  induction l with
  | nil => simp [putKey, getKey, Ne.symm h]
  | cons hd tl ih =>
    by_cases hh : hd.1 = k
    · simp [putKey, getKey, hh, Ne.symm h]
    · simp [putKey, getKey, hh, ih]

theorem putKey_putKey_self {α : Type} (k : String) (v : α) (l : List (String × α)) :
    putKey k v (putKey k v l) = putKey k v l := by
  induction l with
  | nil => simp [putKey]
  | cons hd tl ih =>
    by_cases h : hd.1 = k
    · simp [putKey, h]
    · simp [putKey, h, ih]

theorem getKey_delKeys_mem {α : Type} {k : String} {ks : List String}
    (l : List (String × α)) (h : k ∈ ks) : getKey k (delKeys ks l) = none := by
  induction l with
  | nil => simp [delKeys, getKey]
  | cons hd tl ih =>
    by_cases hh : hd.1 ∈ ks
    · simpa [delKeys, List.filter_cons, hh, getKey] using ih
    · have hne : hd.1 ≠ k := fun he => hh (he ▸ h)
      simpa [delKeys, List.filter_cons, hh, getKey, hne] using ih

theorem getKey_delKeys_not_mem {α : Type} {k : String} {ks : List String}
    (l : List (String × α)) (h : ¬ k ∈ ks) : getKey k (delKeys ks l) = getKey k l := by
  induction l with
  | nil => simp [delKeys, getKey]
  | cons hd tl ih =>
    by_cases hh : hd.1 ∈ ks
    · have hne : hd.1 ≠ k := fun he => h (he ▸ hh)
      simpa [delKeys, List.filter_cons, hh, getKey, hne] using ih
    · by_cases he : hd.1 = k
      · simp [delKeys, List.filter_cons, hh, getKey, he, h]
      · simpa [delKeys, List.filter_cons, hh, getKey, he] using ih

/-- Claim C1: for every valid record, upserting it twice leaves the same
stored state as upserting it once, the second call does not raise, and
re-upserting an existing natural key (`transaction_id`, `account_id`)
overwrites all non-key columns, last write wins. -/
theorem upsert_idempotent_last_write_wins (env : Env) (r : TransactionRecord)
    (a : AccountRecord) (s : St) (hdb : ∀ op, env.dbError op = none) :
    (transactionsService.upsertTransaction env r
        (transactionsService.upsertTransaction env r s).1).1.store
      = (transactionsService.upsertTransaction env r s).1.store
    ∧ (transactionsService.upsertTransaction env r
        (transactionsService.upsertTransaction env r s).1).2 = .ok r
    ∧ getKey r.transaction_id
        (transactionsService.upsertTransaction env r s).1.store.transactions = some r
    ∧ (accountsService.upsertAccount env a
        (accountsService.upsertAccount env a s).1).1.store
      = (accountsService.upsertAccount env a s).1.store
    ∧ (accountsService.upsertAccount env a
        (accountsService.upsertAccount env a s).1).2 = .ok a
    ∧ getKey a.account_id
        (accountsService.upsertAccount env a s).1.store.accounts = some a := by
  refine ⟨?_, ?_, ?_, ?_, ?_, ?_⟩ <;>
    simp [transactionsService.upsertTransaction, accountsService.upsertAccount,
      hdb, pushEff, putKey_putKey_self, getKey_putKey_self]

theorem upsert_idempotent_last_write_wins_witness :
    (transactionsService.upsertTransaction envOk rowT1v2
        (transactionsService.upsertTransaction envOk rowT1v2
          { store := { transactions := [("T1", rowT1)] } }).1).1.store
      = (transactionsService.upsertTransaction envOk rowT1v2
          { store := { transactions := [("T1", rowT1)] } }).1.store
    ∧ getKey "T1"
        (transactionsService.upsertTransaction envOk rowT1v2
          { store := { transactions := [("T1", rowT1)] } }).1.store.transactions
      = some rowT1v2 := by
  have h := upsert_idempotent_last_write_wins envOk rowT1v2 rowA1
    { store := { transactions := [("T1", rowT1)] } } (fun _ => rfl)
  exact ⟨h.1, h.2.2.1⟩

/-- Claim C2: for every webhook payload, `processWebhookEvent` returns
normally — any exception raised inside an event-specific handler is caught
and logged at the dispatcher boundary, so it never raises to its caller. -/
theorem processWebhookEvent_never_raises (env : Env) (p : WebhookPayload) (s : St) :
    (processWebhookEvent env p s).2 = .ok () := by
  rcases h : dispatchEvent env p s with ⟨s1, r⟩
  cases r with
  | ok a => simp [processWebhookEvent, h]
  | error e => simp [processWebhookEvent, h]

/-- Claim C4 counterexample: a transaction whose provider date is the
string `"2024-03-05T00:00:00Z"` is stored with that exact string as its
date, not with the truncated `"2024-03-05"` the claim requires — string
dates pass through the mapper untouched. -/
theorem stored_date_not_truncated_counterexample :
    (transactionRecordOf dayNow
        { id := "T1", date := some (.str "2024-03-05T00:00:00Z") } "AC1").date
      = "2024-03-05T00:00:00Z"
    ∧ ¬ (transactionRecordOf dayNow
        { id := "T1", date := some (.str "2024-03-05T00:00:00Z") } "AC1").date
      = "2024-03-05" := by
  constructor
  · rfl
  · decide

/-- Claim C4 as amended: a string-valued provider date is stored verbatim
(no truncation); only a non-string date-like value is truncated to the
`YYYY-MM-DD` day of its ISO rendering; a missing (or empty-string, hence
falsy) date defaults to the current day at call time. -/
theorem stored_date_normalization (now : JsDateObj) (t : PTransaction) (acc : String) :
    (∀ d : String, t.date = some (.str d) → ¬ d = "" →
      (transactionRecordOf now t acc).date = d)
    ∧ (∀ o : JsDateObj, t.date = some (.obj o) →
      (transactionRecordOf now t acc).date = isoDay o.iso)
    ∧ (t.date = none → (transactionRecordOf now t acc).date = isoDay now.iso)
    ∧ (t.date = some (.str "") → (transactionRecordOf now t acc).date = isoDay now.iso) := by
  refine ⟨?_, ?_, ?_, ?_⟩
  · intro d hd hne
    have hb : (d == "") = false := beq_eq_false_iff_ne.mpr hne
    simp [transactionRecordOf, normalizeTransactionDate, truthyDate, hd, hb]
  · intro o ho
    simp [transactionRecordOf, normalizeTransactionDate, truthyDate, ho]
  · intro hn
    simp [transactionRecordOf, normalizeTransactionDate, truthyDate, hn]
  · intro he
    simp [transactionRecordOf, normalizeTransactionDate, truthyDate, he]

theorem stored_date_normalization_witness :
    (transactionRecordOf dayNow
        { id := "T2", date := some (.obj ⟨"2024-03-05T00:00:00.000Z"⟩) } "AC1").date
      = isoDay "2024-03-05T00:00:00.000Z" :=
  (stored_date_normalization dayNow
    { id := "T2", date := some (.obj ⟨"2024-03-05T00:00:00.000Z"⟩) } "AC1").2.1
    ⟨"2024-03-05T00:00:00.000Z"⟩ rfl

/-- Claim C7: a provider 404-equivalent response for identity, investments
or loans leaves the sync step with zero upserts, no raised error and no
error log — the state is unchanged except for recording the fetch itself. -/
theorem not_found_transparency (env : Env) (itemId : String) (s : St)
    (eI eV eL : Err)
    (hI : env.fetchIdentity itemId = .error eI) (hI4 : eI.status = some 404)
    (hV : env.fetchInvestments itemId = .error eV) (hV4 : eV.status = some 404)
    (hL : env.fetchLoans itemId = .error eL) (hL4 : eL.status = some 404) :
    syncIdentityStep env itemId s = pushEff s (.fetchIdentity itemId)
    ∧ syncInvestmentsStep env itemId s = pushEff s (.fetchInvestments itemId)
    ∧ syncLoansStep env itemId s = pushEff s (.fetchLoans itemId) := by
  refine ⟨?_, ?_, ?_⟩
  · simp [syncIdentityStep, hI, hI4]
  · simp [syncInvestmentsStep, hV, hV4]
  · simp [syncLoansStep, hL, hL4]

theorem not_found_transparency_witness :
    syncIdentityStep envW7 "IT1" {} = pushEff {} (.fetchIdentity "IT1")
    ∧ syncInvestmentsStep envW7 "IT1" {} = pushEff {} (.fetchInvestments "IT1")
    ∧ syncLoansStep envW7 "IT1" {} = pushEff {} (.fetchLoans "IT1") :=
  not_found_transparency envW7 "IT1" {} err404 err404 err404 rfl rfl rfl rfl rfl rfl

/-- Claim C9: a `transactions/deleted` webhook with a non-empty id list
batch-deletes exactly those ids by natural key (deleted ids vanish, all
other rows are untouched); an absent or empty id list is a no-op with zero
persistence calls and no raised error. -/
theorem transactions_deleted_behavior (env : Env) (p : WebhookPayload) (s : St)
    (ids : List String) (hdb : ∀ op, env.dbError op = none) :
    (p.transactionIds = none → handleTransactionsDeleted env p s = (s, .ok ()))
    ∧ (p.transactionIds = some [] → handleTransactionsDeleted env p s = (s, .ok ()))
    ∧ (p.transactionIds = some ids → ¬ ids = [] →
        (handleTransactionsDeleted env p s).1.trace
            = s.trace ++ [Eff.deleteTransactions ids]
        ∧ (handleTransactionsDeleted env p s).1.store.transactions
            = delKeys ids s.store.transactions
        ∧ (∀ k, k ∈ ids →
            getKey k (handleTransactionsDeleted env p s).1.store.transactions = none)
        ∧ (∀ k, ¬ k ∈ ids →
            getKey k (handleTransactionsDeleted env p s).1.store.transactions
              = getKey k s.store.transactions)
        ∧ (handleTransactionsDeleted env p s).2 = .ok ()) := by
  refine ⟨?_, ?_, ?_⟩
  · intro h
    simp [handleTransactionsDeleted, h]
  · intro h
    simp [handleTransactionsDeleted, h]
  · intro h hne
    have hlen : ¬ ids.length = 0 := fun hz => hne (List.length_eq_zero.mp hz)
    refine ⟨?_, ?_, ?_, ?_, ?_⟩ <;>
      simp [handleTransactionsDeleted, h, hlen,
        transactionsService.deleteMultipleTransactions, hdb, pushEff]
    · intro k hk
      exact getKey_delKeys_mem s.store.transactions hk
    · intro k hk
      exact getKey_delKeys_not_mem s.store.transactions hk

theorem transactions_deleted_behavior_witness :
    (handleTransactionsDeleted envOk payloadW9e stW9 = (stW9, .ok ()))
    ∧ getKey "T1" (handleTransactionsDeleted envOk payloadW9 stW9).1.store.transactions
        = none
    ∧ getKey "T9" (handleTransactionsDeleted envOk payloadW9 stW9).1.store.transactions
        = getKey "T9" stW9.store.transactions
    ∧ (handleTransactionsDeleted envOk payloadW9 stW9).1.trace
        = stW9.trace ++ [Eff.deleteTransactions ["T1"]] := by
  have hempty := (transactions_deleted_behavior envOk payloadW9e stW9 ["T1"]
    (fun _ => rfl)).2.1 rfl
  have hfull := (transactions_deleted_behavior envOk payloadW9 stW9 ["T1"]
    (fun _ => rfl)).2.2 rfl (by decide)
  exact ⟨hempty, hfull.2.2.1 "T1" (by decide), hfull.2.2.2.1 "T9" (by decide), hfull.1⟩

/-- Claim C10: handling an `item/deleted` webhook that carries an item id
issues exactly one persistence operation — a delete on the items collection
keyed by `item_id` — and leaves the account, transaction, bill, identity,
investment and loan collections untouched, raising nothing. -/
theorem item_deleted_single_operation (env : Env) (p : WebhookPayload) (s : St)
    (iid : String) (hid : jsOrStr p.itemId p.id = some iid) (hne : ¬ iid = "")
    (hdb : ∀ op, env.dbError op = none) :
    (handleItemDeleted env p s).1.trace = s.trace ++ [Eff.deleteItem iid]
    ∧ (handleItemDeleted env p s).1.store.items = delKey iid s.store.items
    ∧ (handleItemDeleted env p s).1.store.accounts = s.store.accounts
    ∧ (handleItemDeleted env p s).1.store.transactions = s.store.transactions
    ∧ (handleItemDeleted env p s).1.store.bills = s.store.bills
    ∧ (handleItemDeleted env p s).1.store.identities = s.store.identities
    ∧ (handleItemDeleted env p s).1.store.investments = s.store.investments
    ∧ (handleItemDeleted env p s).1.store.loans = s.store.loans
    ∧ (handleItemDeleted env p s).2 = .ok () := by
  have hb : (iid == "") = false := beq_eq_false_iff_ne.mpr hne
  refine ⟨?_, ?_, ?_, ?_, ?_, ?_, ?_, ?_, ?_⟩ <;>
    simp [handleItemDeleted, hid, truthyStr, hb, itemsService.deleteItem, hdb, pushEff]

theorem item_deleted_single_operation_witness :
    (handleItemDeleted envOk payloadW10 stW10).1.trace
        = stW10.trace ++ [Eff.deleteItem "IT1"]
    ∧ (handleItemDeleted envOk payloadW10 stW10).1.store.items
        = delKey "IT1" stW10.store.items
    ∧ (handleItemDeleted envOk payloadW10 stW10).1.store.accounts
        = stW10.store.accounts
    ∧ (handleItemDeleted envOk payloadW10 stW10).1.store.transactions
        = stW10.store.transactions := by
  have h := item_deleted_single_operation envOk payloadW10 stW10 "IT1" rfl (by decide)
    (fun _ => rfl)
  exact ⟨h.1, h.2.1, h.2.2.1, h.2.2.2.1⟩

theorem upsertTxLoop_ok (env : Env) (a : String) (ts : List PTransaction) (s : St)
    (hdb : ∀ op, env.dbError op = none) :
    (upsertTxLoop env a ts s).1.trace
      = s.trace ++ ts.map (fun t => Eff.upsertTransaction (transactionRecordOf env.now t a))
    ∧ (upsertTxLoop env a ts s).2 = .ok () := by
  induction ts generalizing s with
  | nil => simp [upsertTxLoop]
  | cons t rest ih =>
    simp only [upsertTxLoop, upsertTransactionRecord,
      transactionsService.upsertTransaction, hdb]
    refine ⟨?_, (ih _).2⟩
    rw [(ih _).1]
    simp [pushEff]

theorem upsertTxLoop_frame (env : Env) (a : String) (ts : List PTransaction) (s : St)
    (k : String) (hk : ∀ t ∈ ts, ¬ t.id = k) :
    getKey k (upsertTxLoop env a ts s).1.store.transactions
      = getKey k s.store.transactions := by
  induction ts generalizing s with
  | nil => simp [upsertTxLoop]
  | cons t rest ih =>
    have hne : ¬ (transactionRecordOf env.now t a).transaction_id = k :=
      hk t (List.mem_cons_self t rest)
    cases hdb : env.dbError (Eff.upsertTransaction (transactionRecordOf env.now t a)) with
    | none =>
      simp only [upsertTxLoop, upsertTransactionRecord,
        transactionsService.upsertTransaction, hdb]
      rw [ih _ (fun u hu => hk u (List.mem_cons_of_mem _ hu))]
      exact getKey_putKey_ne _ _ (Ne.symm hne)
    | some m =>
      simp [upsertTxLoop, upsertTransactionRecord,
        transactionsService.upsertTransaction, hdb, pushEff]

/-- Claim C5: a `transactions/created` webhook with an `accountId` and a
non-empty `transactionIds` list upserts exactly the fetched transactions
whose id is listed (in fetch order), leaves every transaction row keyed
outside the list unchanged, and raises nothing. -/
theorem transactions_created_filters_exactly (env : Env) (p : WebhookPayload) (s : St)
    (a : String) (ids : List String) (ts : List PTransaction)
    (hcred : env.hasCredentials = true)
    (hacc : p.accountId = some a) (hane : ¬ a = "")
    (hids : p.transactionIds = some ids) (hne : ¬ ids = [])
    (hts : env.fetchAllTransactions a = .ok ts)
    (hdb : ∀ op, env.dbError op = none) :
    (handleTransactionsCreated env p s).1.trace
      = s.trace ++ [Eff.fetchTransactions a]
        ++ (ts.filter (fun t => ids.contains t.id)).map
            (fun t => Eff.upsertTransaction (transactionRecordOf env.now t a))
    ∧ (∀ k, ¬ k ∈ ids →
        getKey k (handleTransactionsCreated env p s).1.store.transactions
          = getKey k s.store.transactions)
    ∧ (handleTransactionsCreated env p s).2 = .ok () := by
  have hb : (a == "") = false := beq_eq_false_iff_ne.mpr hane
  have hlen : 0 < ids.length := List.length_pos.mpr hne
  have hfilter : filterToProcess p.transactionIds ts
      = ts.filter (fun t => ids.contains t.id) := by
    simp [filterToProcess, hids, hlen]
  have hframe : ∀ k, ¬ k ∈ ids →
      ∀ u ∈ ts.filter (fun t => ids.contains t.id), ¬ u.id = k := by
    intro k hk u hu he
    have hmem := (List.mem_filter.mp hu).2
    rw [he] at hmem
    exact hk (by simpa using hmem)
  by_cases hcase : 0 < (ts.filter (fun t => ids.contains t.id)).length
  · refine ⟨?_, ?_, ?_⟩
    · simp only [handleTransactionsCreated, hcred, Bool.not_true, Bool.false_eq_true,
        if_false, hacc, truthyStr, hb, Bool.not_false, if_true, Option.getD_some, hts,
        hfilter, hcase, if_pos]
      obtain ⟨h1, h2⟩ := upsertTxLoop_ok env a (ts.filter (fun t => ids.contains t.id))
        (pushEff s (.fetchTransactions a)) hdb
      rcases hloop : upsertTxLoop env a (ts.filter (fun t => ids.contains t.id))
        (pushEff s (.fetchTransactions a)) with ⟨s2, r⟩
      rw [hloop] at h1 h2
      cases r with
      | ok u => simpa [pushEff] using h1
      | error e => simp at h2
    · intro k hk
      simp only [handleTransactionsCreated, hcred, Bool.not_true, Bool.false_eq_true,
        if_false, hacc, truthyStr, hb, Bool.not_false, if_true, Option.getD_some, hts,
        hfilter, hcase, if_pos]
      have hfr := upsertTxLoop_frame env a (ts.filter (fun t => ids.contains t.id))
        (pushEff s (.fetchTransactions a)) k (hframe k hk)
      obtain ⟨h1, h2⟩ := upsertTxLoop_ok env a (ts.filter (fun t => ids.contains t.id))
        (pushEff s (.fetchTransactions a)) hdb
      rcases hloop : upsertTxLoop env a (ts.filter (fun t => ids.contains t.id))
        (pushEff s (.fetchTransactions a)) with ⟨s2, r⟩
      rw [hloop] at hfr h2
      cases r with
      | ok u => simpa [pushEff] using hfr
      | error e => simp at h2
    · simp only [handleTransactionsCreated, hcred, Bool.not_true, Bool.false_eq_true,
        if_false, hacc, truthyStr, hb, Bool.not_false, if_true, Option.getD_some, hts,
        hfilter, hcase, if_pos]
      obtain ⟨h1, h2⟩ := upsertTxLoop_ok env a (ts.filter (fun t => ids.contains t.id))
        (pushEff s (.fetchTransactions a)) hdb
      rcases hloop : upsertTxLoop env a (ts.filter (fun t => ids.contains t.id))
        (pushEff s (.fetchTransactions a)) with ⟨s2, r⟩
      rw [hloop] at h2
      cases r with
      | ok u => simp
      | error e => simp at h2
  · have hnil : ts.filter (fun t => ids.contains t.id) = [] :=
      List.length_eq_zero.mp (Nat.eq_zero_of_not_pos hcase)
    have hnil2 : ts.filter (fun t => decide (t.id ∈ ids)) = [] := by
      simpa using hnil
    refine ⟨?_, ?_, ?_⟩ <;>
      simp [handleTransactionsCreated, hcred, hacc, truthyStr, hb, hts, hfilter,
        hnil, hnil2, pushEff]

theorem transactions_created_filters_exactly_witness :
    (handleTransactionsCreated envW5 payloadW5 {}).1.trace
      = ([] : List Eff) ++ [Eff.fetchTransactions "AC1"]
        ++ ([txT1, txT2, txT3].filter (fun t => ["T1", "T2"].contains t.id)).map
            (fun t => Eff.upsertTransaction (transactionRecordOf envW5.now t "AC1"))
    ∧ getKey "T3" (handleTransactionsCreated envW5 payloadW5 {}).1.store.transactions
        = getKey "T3" ({} : St).store.transactions := by
  have h := transactions_created_filters_exactly envW5 payloadW5 {} "AC1" ["T1", "T2"]
    [txT1, txT2, txT3] rfl rfl (by decide) rfl (by decide) rfl (fun _ => rfl)
  exact ⟨h.1, h.2.1 "T3" (by decide)⟩

/-- Claim C6: handling a payload under the `transactions/updated` tag
performs the same fetches and persistence writes, and produces the same
stored state, as handling it under `transactions/created` — the updated
handler delegates to the created handler, so the two differ at most in the
log lines the dispatcher emits. -/
theorem transactions_updated_equals_created (env : Env) (p : WebhookPayload) (s : St)
    (h : p.event = "transactions/updated") :
    (processWebhookEvent env { p with event := "transactions/created" } s).1.store
      = (processWebhookEvent env p s).1.store
    ∧ (processWebhookEvent env { p with event := "transactions/created" } s).1.trace.filter
        (fun e => !(e.isLog))
      = (processWebhookEvent env p s).1.trace.filter (fun e => !(e.isLog)) := by
  have hc : dispatchEvent env { p with event := "transactions/created" } s
      = handleTransactionsCreated env p s := rfl
  have hu : dispatchEvent env p s = handleTransactionsCreated env p s := by
    unfold dispatchEvent
    rw [h]
    exact rfl
  rcases hres : handleTransactionsCreated env p s with ⟨s1, r⟩
  simp only [processWebhookEvent, hc, hu, hres]
  cases r with
  | ok u => simp
  | error e => simp [logErr, pushEff, Eff.isLog, List.filter_append]

theorem transactions_updated_equals_created_witness :
    (processWebhookEvent envW5 { payloadW6 with event := "transactions/created" } {}).1.store
      = (processWebhookEvent envW5 payloadW6 {}).1.store :=
  (transactions_updated_equals_created envW5 payloadW6 {} rfl).1

theorem upsertTransaction_trace (env : Env) (r : TransactionRecord) (s : St) :
    (transactionsService.upsertTransaction env r s).1.trace
      = s.trace ++ [Eff.upsertTransaction r] := by
  cases h : env.dbError (Eff.upsertTransaction r) <;>
    simp [transactionsService.upsertTransaction, h, pushEff]

theorem upsertBill_trace (env : Env) (r : CreditCardBillRecord) (s : St) :
    (creditCardBillsService.upsertBill env r s).1.trace
      = s.trace ++ [Eff.upsertBill r] := by
  cases h : env.dbError (Eff.upsertBill r) <;>
    simp [creditCardBillsService.upsertBill, h, pushEff]

theorem upsertInvestment_trace (env : Env) (r : InvestmentRecord) (s : St) :
    (investmentsService.upsertInvestment env r s).1.trace
      = s.trace ++ [Eff.upsertInvestment r] := by
  cases h : env.dbError (Eff.upsertInvestment r) <;>
    simp [investmentsService.upsertInvestment, h, pushEff]

theorem upsertLoan_trace (env : Env) (r : LoanRecord) (s : St) :
    (loansService.upsertLoan env r s).1.trace = s.trace ++ [Eff.upsertLoan r] := by
  cases h : env.dbError (Eff.upsertLoan r) <;>
    simp [loansService.upsertLoan, h, pushEff]

theorem upsertIdentity_trace (env : Env) (r : IdentityRecord) (s : St) :
    (identityService.upsertIdentity env r s).1.trace
      = s.trace ++ [Eff.upsertIdentity r] := by
  cases h : env.dbError (Eff.upsertIdentity r) <;>
    simp [identityService.upsertIdentity, h, pushEff]

theorem upsertTxLoop_mono (env : Env) (a : String) (ts : List PTransaction) :
    ∀ s : St, ∃ tl, (upsertTxLoop env a ts s).1.trace = s.trace ++ tl := by
  induction ts with
  | nil =>
    intro s
    exact ⟨[], by simp [upsertTxLoop]⟩
  | cons t rest ih =>
    intro s
    rcases hr : transactionsService.upsertTransaction env
      (transactionRecordOf env.now t a) s with ⟨s1, r⟩
    have hs1 : s1.trace
        = s.trace ++ [Eff.upsertTransaction (transactionRecordOf env.now t a)] := by
      have h0 := upsertTransaction_trace env (transactionRecordOf env.now t a) s
      rw [hr] at h0
      exact h0
    simp only [upsertTxLoop, upsertTransactionRecord, hr]
    cases r with
    | ok u =>
      obtain ⟨tl, htl⟩ := ih s1
      exact ⟨Eff.upsertTransaction (transactionRecordOf env.now t a) :: tl, by
        rw [htl, hs1]
        simp⟩
    | error e =>
      exact ⟨[Eff.upsertTransaction (transactionRecordOf env.now t a)], hs1⟩

theorem upsertBillsLoop_mono (env : Env) (a : String) (bs : List PBill) :
    ∀ s : St, ∃ tl, (upsertBillsLoop env a bs s).1.trace = s.trace ++ tl := by
  induction bs with
  | nil =>
    intro s
    exact ⟨[], by simp [upsertBillsLoop]⟩
  | cons b rest ih =>
    intro s
    rcases hr : creditCardBillsService.upsertBill env (billRecordOf a b) s with ⟨s1, r⟩
    have hs1 : s1.trace = s.trace ++ [Eff.upsertBill (billRecordOf a b)] := by
      have h0 := upsertBill_trace env (billRecordOf a b) s
      rw [hr] at h0
      exact h0
    simp only [upsertBillsLoop, hr]
    cases r with
    | ok u =>
      obtain ⟨tl, htl⟩ := ih s1
      exact ⟨Eff.upsertBill (billRecordOf a b) :: tl, by
        rw [htl, hs1]
        simp⟩
    | error e =>
      exact ⟨[Eff.upsertBill (billRecordOf a b)], hs1⟩

theorem upsertInvestmentsLoop_mono (env : Env) (itemId : String) (vs : List PInvestment) :
    ∀ s : St, ∃ tl, (upsertInvestmentsLoop env itemId vs s).1.trace = s.trace ++ tl := by
  induction vs with
  | nil =>
    intro s
    exact ⟨[], by simp [upsertInvestmentsLoop]⟩
  | cons v rest ih =>
    intro s
    rcases hr : investmentsService.upsertInvestment env
      (investmentRecordOf itemId v) s with ⟨s1, r⟩
    have hs1 : s1.trace
        = s.trace ++ [Eff.upsertInvestment (investmentRecordOf itemId v)] := by
      have h0 := upsertInvestment_trace env (investmentRecordOf itemId v) s
      rw [hr] at h0
      exact h0
    simp only [upsertInvestmentsLoop, hr]
    cases r with
    | ok u =>
      obtain ⟨tl, htl⟩ := ih s1
      exact ⟨Eff.upsertInvestment (investmentRecordOf itemId v) :: tl, by
        rw [htl, hs1]
        simp⟩
    | error e =>
      exact ⟨[Eff.upsertInvestment (investmentRecordOf itemId v)], hs1⟩

theorem upsertLoansLoop_mono (env : Env) (itemId : String) (ls : List PLoan) :
    ∀ s : St, ∃ tl, (upsertLoansLoop env itemId ls s).1.trace = s.trace ++ tl := by
  induction ls with
  | nil =>
    intro s
    exact ⟨[], by simp [upsertLoansLoop]⟩
  | cons l rest ih =>
    intro s
    rcases hr : loansService.upsertLoan env (loanRecordOf itemId l) s with ⟨s1, r⟩
    have hs1 : s1.trace = s.trace ++ [Eff.upsertLoan (loanRecordOf itemId l)] := by
      have h0 := upsertLoan_trace env (loanRecordOf itemId l) s
      rw [hr] at h0
      exact h0
    simp only [upsertLoansLoop, hr]
    cases r with
    | ok u =>
      obtain ⟨tl, htl⟩ := ih s1
      exact ⟨Eff.upsertLoan (loanRecordOf itemId l) :: tl, by
        rw [htl, hs1]
        simp⟩
    | error e =>
      exact ⟨[Eff.upsertLoan (loanRecordOf itemId l)], hs1⟩


theorem syncAccountTx_trace (env : Env) (a : PAccount) (s : St) :
    ∃ tl, (syncAccountTx env a s).trace = s.trace ++ Eff.fetchTransactions a.id :: tl := by
  rcases hf : env.fetchAllTransactions a.id with e | ts
  · exact ⟨[Eff.logError ("Error syncing transactions for account " ++ a.id)], by
      simp [syncAccountTx, hf, logErr, pushEff]⟩
  · by_cases hl : ts.length > 0
    · simp only [syncAccountTx, hf]
      rw [if_pos hl]
      rcases hloop : upsertTxLoop env a.id ts
        (pushEff s (.fetchTransactions a.id)) with ⟨s2, r⟩
      obtain ⟨tl, htl⟩ := upsertTxLoop_mono env a.id ts (pushEff s (.fetchTransactions a.id))
      rw [hloop] at htl
      have htl2 : s2.trace = (s.trace ++ [Eff.fetchTransactions a.id]) ++ tl := by
        simpa [pushEff] using htl
      cases r with
      | ok u => exact ⟨tl, by simp [htl2]⟩
      | error e =>
        exact ⟨tl ++ [Eff.logError ("Error syncing transactions for account " ++ a.id)], by
          simp [logErr, pushEff, htl2]⟩
    · simp only [syncAccountTx, hf]
      rw [if_neg hl]
      exact ⟨[], by simp [pushEff]⟩

theorem syncAccountTx_mono (env : Env) (a : PAccount) : TraceMono (syncAccountTx env a) := by
  intro s
  obtain ⟨tl, h⟩ := syncAccountTx_trace env a s
  exact ⟨Eff.fetchTransactions a.id :: tl, h⟩

theorem syncAccountBills_trace_credit (env : Env) (a : PAccount) (s : St)
    (hc : a.type = some "CREDIT") :
    ∃ tl, (syncAccountBills env a s).trace = s.trace ++ Eff.fetchBills a.id :: tl := by
  have hcb : (a.type == some "CREDIT") = true := by simp [hc]
  rcases hf : env.fetchCreditCardBills a.id with e | bills
  · exact ⟨[Eff.logError ("Error syncing bills for account " ++ a.id)], by
      simp [syncAccountBills, hcb, hf, logErr, pushEff]⟩
  · by_cases hl : bills.length > 0
    · simp only [syncAccountBills, hcb, if_true, hf]
      rw [if_pos hl]
      rcases hloop : upsertBillsLoop env a.id bills
        (pushEff s (.fetchBills a.id)) with ⟨s2, r⟩
      obtain ⟨tl, htl⟩ := upsertBillsLoop_mono env a.id bills (pushEff s (.fetchBills a.id))
      rw [hloop] at htl
      have htl2 : s2.trace = (s.trace ++ [Eff.fetchBills a.id]) ++ tl := by
        simpa [pushEff] using htl
      cases r with
      | ok u => exact ⟨tl, by simp [htl2]⟩
      | error e =>
        exact ⟨tl ++ [Eff.logError ("Error syncing bills for account " ++ a.id)], by
          simp [logErr, pushEff, htl2]⟩
    · simp only [syncAccountBills, hcb, if_true, hf]
      rw [if_neg hl]
      exact ⟨[], by simp [pushEff]⟩

theorem syncAccountBills_mono (env : Env) (a : PAccount) :
    TraceMono (syncAccountBills env a) := by
  intro s
  by_cases hc : a.type = some "CREDIT"
  · obtain ⟨tl, h⟩ := syncAccountBills_trace_credit env a s hc
    exact ⟨Eff.fetchBills a.id :: tl, h⟩
  · have hcb : (a.type == some "CREDIT") = false := by
      simpa using hc
    simp only [syncAccountBills]
    rw [if_neg (by simp [hcb])]
    exact ⟨[], by simp⟩

theorem syncAccountLoopBody_mono (env : Env) (a : PAccount) :
    TraceMono (syncAccountLoopBody env a) := by
  intro s
  obtain ⟨t1, h1⟩ := syncAccountTx_mono env a s
  obtain ⟨t2, h2⟩ := syncAccountBills_mono env a (syncAccountTx env a s)
  exact ⟨t1 ++ t2, by rw [syncAccountLoopBody, h2, h1, List.append_assoc]⟩

theorem syncAccountsLoop_mono (env : Env) (accts : List PAccount) :
    ∀ s : St, ∃ tl, (syncAccountsLoop env accts s).trace = s.trace ++ tl := by
  induction accts with
  | nil =>
    intro s
    exact ⟨[], by simp [syncAccountsLoop]⟩
  | cons a rest ih =>
    intro s
    obtain ⟨t1, h1⟩ := syncAccountLoopBody_mono env a s
    obtain ⟨t2, h2⟩ := ih (syncAccountLoopBody env a s)
    exact ⟨t1 ++ t2, by rw [syncAccountsLoop, h2, h1, List.append_assoc]⟩

theorem syncAccountsLoop_append (env : Env) (l1 l2 : List PAccount) (s : St) :
    syncAccountsLoop env (l1 ++ l2) s
      = syncAccountsLoop env l2 (syncAccountsLoop env l1 s) := by
  induction l1 generalizing s with
  | nil => simp [syncAccountsLoop]
  | cons a rest ih =>
    simp only [List.cons_append, syncAccountsLoop]
    exact ih _

theorem syncIdentityStep_trace (env : Env) (itemId : String) (s : St) :
    ∃ tl, (syncIdentityStep env itemId s).trace
      = s.trace ++ Eff.fetchIdentity itemId :: tl := by
  rcases hf : env.fetchIdentity itemId with e | oid
  · by_cases h4 : e.status = some 404
    · simp only [syncIdentityStep, hf]
      rw [if_pos h4]
      exact ⟨[], by simp [pushEff]⟩
    · simp only [syncIdentityStep, hf]
      rw [if_neg h4]
      exact ⟨[Eff.logError ("Error syncing identity for item " ++ itemId)], by
        simp [logErr, pushEff]⟩
  · cases oid with
    | none => exact ⟨[], by simp [syncIdentityStep, hf, pushEff]⟩
    | some ident =>
      simp only [syncIdentityStep, hf]
      rcases hr : identityService.upsertIdentity env
        (identityRecordOf env itemId ident) (pushEff s (.fetchIdentity itemId)) with ⟨s2, r⟩
      have hs2 : s2.trace = s.trace ++ [Eff.fetchIdentity itemId,
          Eff.upsertIdentity (identityRecordOf env itemId ident)] := by
        have h0 := upsertIdentity_trace env (identityRecordOf env itemId ident)
          (pushEff s (.fetchIdentity itemId))
        rw [hr] at h0
        simpa [pushEff] using h0
      cases r with
      | ok u => exact ⟨_, hs2⟩
      | error e =>
        by_cases h4 : e.status = some 404
        · refine ⟨[Eff.upsertIdentity (identityRecordOf env itemId ident)], ?_⟩
          show (if e.status = some 404 then s2
            else logErr s2 ("Error syncing identity for item " ++ itemId)).trace = _
          rw [if_pos h4]
          exact hs2
        · refine ⟨Eff.upsertIdentity (identityRecordOf env itemId ident)
              :: [Eff.logError ("Error syncing identity for item " ++ itemId)], ?_⟩
          show (if e.status = some 404 then s2
            else logErr s2 ("Error syncing identity for item " ++ itemId)).trace = _
          rw [if_neg h4]
          simp [logErr, pushEff, hs2]

theorem syncIdentityStep_mono (env : Env) (itemId : String) :
    TraceMono (syncIdentityStep env itemId) := by
  intro s
  obtain ⟨tl, h⟩ := syncIdentityStep_trace env itemId s
  exact ⟨Eff.fetchIdentity itemId :: tl, h⟩

theorem syncInvestmentsStep_trace (env : Env) (itemId : String) (s : St) :
    ∃ tl, (syncInvestmentsStep env itemId s).trace
      = s.trace ++ Eff.fetchInvestments itemId :: tl := by
  rcases hf : env.fetchInvestments itemId with e | invs
  · by_cases h4 : e.status = some 404
    · simp only [syncInvestmentsStep, hf]
      rw [if_pos h4]
      exact ⟨[], by simp [pushEff]⟩
    · simp only [syncInvestmentsStep, hf]
      rw [if_neg h4]
      exact ⟨[Eff.logError ("Error syncing investments for item " ++ itemId)], by
        simp [logErr, pushEff]⟩
  · by_cases hl : invs.length > 0
    · simp only [syncInvestmentsStep, hf]
      rw [if_pos hl]
      rcases hloop : upsertInvestmentsLoop env itemId invs
        (pushEff s (.fetchInvestments itemId)) with ⟨s2, r⟩
      obtain ⟨tl, htl⟩ := upsertInvestmentsLoop_mono env itemId invs
        (pushEff s (.fetchInvestments itemId))
      rw [hloop] at htl
      have htl2 : s2.trace = (s.trace ++ [Eff.fetchInvestments itemId]) ++ tl := by
        simpa [pushEff] using htl
      cases r with
      | ok u => exact ⟨tl, by simp [htl2]⟩
      | error e =>
        by_cases h4 : e.status = some 404
        · refine ⟨tl, ?_⟩
          show (if e.status = some 404 then s2
            else logErr s2 ("Error syncing investments for item " ++ itemId)).trace = _
          rw [if_pos h4]
          simp [htl2]
        · refine ⟨tl ++ [Eff.logError ("Error syncing investments for item " ++ itemId)], ?_⟩
          show (if e.status = some 404 then s2
            else logErr s2 ("Error syncing investments for item " ++ itemId)).trace = _
          rw [if_neg h4]
          simp [logErr, pushEff, htl2]
    · simp only [syncInvestmentsStep, hf]
      rw [if_neg hl]
      exact ⟨[], by simp [pushEff]⟩

theorem syncInvestmentsStep_mono (env : Env) (itemId : String) :
    TraceMono (syncInvestmentsStep env itemId) := by
  intro s
  obtain ⟨tl, h⟩ := syncInvestmentsStep_trace env itemId s
  exact ⟨Eff.fetchInvestments itemId :: tl, h⟩

theorem syncLoansStep_trace (env : Env) (itemId : String) (s : St) :
    ∃ tl, (syncLoansStep env itemId s).trace = s.trace ++ Eff.fetchLoans itemId :: tl := by
  rcases hf : env.fetchLoans itemId with e | loans
  · by_cases h4 : e.status = some 404
    · simp only [syncLoansStep, hf]
      rw [if_pos h4]
      exact ⟨[], by simp [pushEff]⟩
    · simp only [syncLoansStep, hf]
      rw [if_neg h4]
      exact ⟨[Eff.logError ("Error syncing loans for item " ++ itemId)], by
        simp [logErr, pushEff]⟩
  · by_cases hl : loans.length > 0
    · simp only [syncLoansStep, hf]
      rw [if_pos hl]
      rcases hloop : upsertLoansLoop env itemId loans
        (pushEff s (.fetchLoans itemId)) with ⟨s2, r⟩
      obtain ⟨tl, htl⟩ := upsertLoansLoop_mono env itemId loans
        (pushEff s (.fetchLoans itemId))
      rw [hloop] at htl
      have htl2 : s2.trace = (s.trace ++ [Eff.fetchLoans itemId]) ++ tl := by
        simpa [pushEff] using htl
      cases r with
      | ok u => exact ⟨tl, by simp [htl2]⟩
      | error e =>
        by_cases h4 : e.status = some 404
        · refine ⟨tl, ?_⟩
          show (if e.status = some 404 then s2
            else logErr s2 ("Error syncing loans for item " ++ itemId)).trace = _
          rw [if_pos h4]
          simp [htl2]
        · refine ⟨tl ++ [Eff.logError ("Error syncing loans for item " ++ itemId)], ?_⟩
          show (if e.status = some 404 then s2
            else logErr s2 ("Error syncing loans for item " ++ itemId)).trace = _
          rw [if_neg h4]
          simp [logErr, pushEff, htl2]
    · simp only [syncLoansStep, hf]
      rw [if_neg hl]
      exact ⟨[], by simp [pushEff]⟩

theorem syncLoansStep_mono (env : Env) (itemId : String) :
    TraceMono (syncLoansStep env itemId) := by
  intro s
  obtain ⟨tl, h⟩ := syncLoansStep_trace env itemId s
  exact ⟨Eff.fetchLoans itemId :: tl, h⟩

theorem mem_of_traceMono {f : St → St} (hf : TraceMono f) {e : Eff} {s : St}
    (he : e ∈ s.trace) : e ∈ (f s).trace := by
  obtain ⟨tl, h⟩ := hf s
  rw [h]
  exact List.mem_append_left _ he

theorem upsertMultipleAccounts_ok (env : Env) (rs : List AccountRecord) (s : St)
    (hdb : env.dbError (Eff.upsertAccounts rs) = none) :
    accountsService.upsertMultipleAccounts env rs s
      = ({ store := { s.store with
             accounts := rs.foldl (fun acc r => putKey r.account_id r acc) s.store.accounts },
           trace := s.trace ++ [Eff.upsertAccounts rs] }, .ok rs) := by
  simp [accountsService.upsertMultipleAccounts, hdb, pushEff]

theorem upserts_mem_syncAccountTx (env : Env) (a : PAccount) (s : St)
    (ts : List PTransaction) (hts : env.fetchAllTransactions a.id = .ok ts)
    (hdb : ∀ op, env.dbError op = none) (t : PTransaction) (ht : t ∈ ts) :
    Eff.upsertTransaction (transactionRecordOf env.now t a.id)
      ∈ (syncAccountTx env a s).trace := by
  have hl : ts.length > 0 := List.length_pos.mpr (by rintro rfl; simp at ht)
  simp only [syncAccountTx, hts]
  rw [if_pos hl]
  obtain ⟨h1, h2⟩ := upsertTxLoop_ok env a.id ts (pushEff s (.fetchTransactions a.id)) hdb
  rcases hloop : upsertTxLoop env a.id ts (pushEff s (.fetchTransactions a.id)) with ⟨s2, r⟩
  rw [hloop] at h1 h2
  cases r with
  | ok u =>
    have h1t : s2.trace = (pushEff s (.fetchTransactions a.id)).trace
        ++ ts.map (fun t => Eff.upsertTransaction (transactionRecordOf env.now t a.id)) := h1
    rw [h1t]
    exact List.mem_append_right _ (List.mem_map_of_mem _ ht)
  | error e => simp at h2

/-- Claim C3: in a sync pass over an item with several accounts, if the
transaction fetch for account `A` raises, the bills sub-step for `A` (when
`A` is a credit account) still runs, every remaining account is still
processed — its transactions are fetched and upserted — and the identity,
investments and loans steps still execute.  No hypothesis constrains the
identity fetch, so the investments and loans conclusions hold even when the
identity step raises. -/
theorem sync_failure_isolation (env : Env) (itemId : String) (s : St)
    (pre post : List PAccount) (A : PAccount) (e : Err)
    (hcred : env.hasCredentials = true)
    (hacc : env.fetchAccounts itemId = .ok (pre ++ A :: post))
    (_htx : env.fetchAllTransactions A.id = .error e)
    (hdb : ∀ op, env.dbError op = none) :
    (A.type = some "CREDIT" →
      Eff.fetchBills A.id ∈ (syncItemData env itemId s).trace)
    ∧ (∀ B ∈ post, Eff.fetchTransactions B.id ∈ (syncItemData env itemId s).trace)
    ∧ (∀ B ∈ post, ∀ ts, env.fetchAllTransactions B.id = .ok ts →
        ∀ t ∈ ts, Eff.upsertTransaction (transactionRecordOf env.now t B.id)
          ∈ (syncItemData env itemId s).trace)
    ∧ Eff.fetchIdentity itemId ∈ (syncItemData env itemId s).trace
    ∧ Eff.fetchInvestments itemId ∈ (syncItemData env itemId s).trace
    ∧ Eff.fetchLoans itemId ∈ (syncItemData env itemId s).trace := by
  have hunfold : syncItemData env itemId s
      = syncLoansStep env itemId
          (syncInvestmentsStep env itemId
            (syncIdentityStep env itemId (syncAccountsStep env itemId s))) := by
    simp [syncItemData, hcred]
  have persist3 : ∀ {ef : Eff} {st : St}, ef ∈ st.trace →
      ef ∈ (syncLoansStep env itemId
        (syncInvestmentsStep env itemId (syncIdentityStep env itemId st))).trace :=
    fun h => mem_of_traceMono (syncLoansStep_mono env itemId)
      (mem_of_traceMono (syncInvestmentsStep_mono env itemId)
        (mem_of_traceMono (syncIdentityStep_mono env itemId) h))
  have hlen : (pre ++ A :: post).length > 0 := by simp
  obtain ⟨S2, hstep⟩ : ∃ S2, syncAccountsStep env itemId s
      = syncAccountsLoop env (pre ++ A :: post) S2 := by
    have h : syncAccountsStep env itemId s
        = syncAccountsLoop env (pre ++ A :: post)
            ({ store := { s.store with
                 accounts := ((pre ++ A :: post).map (accountRecordOf itemId)).foldl
                   (fun acc r => putKey r.account_id r acc) s.store.accounts },
               trace := (s.trace ++ [Eff.fetchAccounts itemId])
                 ++ [Eff.upsertAccounts ((pre ++ A :: post).map (accountRecordOf itemId))] }) := by
      simp only [syncAccountsStep, hacc]
      rw [if_pos hlen, upsertMultipleAccounts_ok env _ _ (hdb _)]
      exact rfl
    exact ⟨_, h⟩
  have hloopdec : syncAccountsLoop env (pre ++ A :: post) S2
      = syncAccountsLoop env post
          (syncAccountLoopBody env A (syncAccountsLoop env pre S2)) := by
    rw [syncAccountsLoop_append]
    rfl
  have hbody : syncAccountsStep env itemId s
      = syncAccountsLoop env post
          (syncAccountLoopBody env A (syncAccountsLoop env pre S2)) := by
    rw [hstep, hloopdec]
  have hmemA : ∀ {ef : Eff},
      ef ∈ (syncAccountLoopBody env A (syncAccountsLoop env pre S2)).trace →
      ef ∈ (syncItemData env itemId s).trace := by
    intro ef hef
    rw [hunfold, hbody]
    obtain ⟨tl, hl2⟩ := syncAccountsLoop_mono env post
      (syncAccountLoopBody env A (syncAccountsLoop env pre S2))
    exact persist3 (by rw [hl2]; exact List.mem_append_left _ hef)
  refine ⟨?_, ?_, ?_, ?_, ?_, ?_⟩
  · intro hc
    apply hmemA
    obtain ⟨tl, hb⟩ := syncAccountBills_trace_credit env A
      (syncAccountTx env A (syncAccountsLoop env pre S2)) hc
    rw [syncAccountLoopBody, hb]
    simp
  · intro B hB
    obtain ⟨p1, p2, hpost⟩ := List.append_of_mem hB
    have hdec : syncAccountsLoop env post
        (syncAccountLoopBody env A (syncAccountsLoop env pre S2))
        = syncAccountsLoop env p2
            (syncAccountLoopBody env B
              (syncAccountsLoop env p1
                (syncAccountLoopBody env A (syncAccountsLoop env pre S2)))) := by
      rw [hpost, syncAccountsLoop_append]
      rfl
    rw [hunfold, hbody, hdec]
    apply persist3
    obtain ⟨tl2, hl2⟩ := syncAccountsLoop_mono env p2
      (syncAccountLoopBody env B
        (syncAccountsLoop env p1
          (syncAccountLoopBody env A (syncAccountsLoop env pre S2))))
    rw [hl2]
    apply List.mem_append_left
    apply mem_of_traceMono (syncAccountBills_mono env B)
    obtain ⟨tl3, hl3⟩ := syncAccountTx_trace env B
      (syncAccountsLoop env p1
        (syncAccountLoopBody env A (syncAccountsLoop env pre S2)))
    rw [hl3]
    simp
  · intro B hB ts hts t ht
    obtain ⟨p1, p2, hpost⟩ := List.append_of_mem hB
    have hdec : syncAccountsLoop env post
        (syncAccountLoopBody env A (syncAccountsLoop env pre S2))
        = syncAccountsLoop env p2
            (syncAccountLoopBody env B
              (syncAccountsLoop env p1
                (syncAccountLoopBody env A (syncAccountsLoop env pre S2)))) := by
      rw [hpost, syncAccountsLoop_append]
      rfl
    rw [hunfold, hbody, hdec]
    apply persist3
    obtain ⟨tl2, hl2⟩ := syncAccountsLoop_mono env p2
      (syncAccountLoopBody env B
        (syncAccountsLoop env p1
          (syncAccountLoopBody env A (syncAccountsLoop env pre S2))))
    rw [hl2]
    apply List.mem_append_left
    apply mem_of_traceMono (syncAccountBills_mono env B)
    exact upserts_mem_syncAccountTx env B _ ts hts hdb t ht
  · rw [hunfold]
    apply mem_of_traceMono (syncLoansStep_mono env itemId)
    apply mem_of_traceMono (syncInvestmentsStep_mono env itemId)
    obtain ⟨tl, h⟩ := syncIdentityStep_trace env itemId (syncAccountsStep env itemId s)
    rw [h]
    simp
  · rw [hunfold]
    apply mem_of_traceMono (syncLoansStep_mono env itemId)
    obtain ⟨tl, h⟩ := syncInvestmentsStep_trace env itemId
      (syncIdentityStep env itemId (syncAccountsStep env itemId s))
    rw [h]
    simp
  · rw [hunfold]
    obtain ⟨tl, h⟩ := syncLoansStep_trace env itemId
      (syncInvestmentsStep env itemId
        (syncIdentityStep env itemId (syncAccountsStep env itemId s)))
    rw [h]
    simp

theorem sync_failure_isolation_witness :
    Eff.fetchBills "A" ∈ (syncItemData envW3 "IT1" {}).trace
    ∧ Eff.fetchTransactions "B" ∈ (syncItemData envW3 "IT1" {}).trace
    ∧ Eff.upsertTransaction (transactionRecordOf envW3.now txB1 "B")
        ∈ (syncItemData envW3 "IT1" {}).trace
    ∧ Eff.fetchIdentity "IT1" ∈ (syncItemData envW3 "IT1" {}).trace
    ∧ Eff.fetchInvestments "IT1" ∈ (syncItemData envW3 "IT1" {}).trace
    ∧ Eff.fetchLoans "IT1" ∈ (syncItemData envW3 "IT1" {}).trace := by
  have h := sync_failure_isolation envW3 "IT1" {} [] [accB] accA errNet rfl rfl rfl
    (fun _ => rfl)
  exact ⟨h.1 rfl, h.2.1 accB (by simp), h.2.2.1 accB (by simp) [txB1] rfl txB1 (by simp),
    h.2.2.2.1, h.2.2.2.2.1, h.2.2.2.2.2⟩

theorem upsertInvestmentsLoop_ok (env : Env) (itemId : String) (vs : List PInvestment)
    (s : St) (hdb : ∀ op, env.dbError op = none) :
    (upsertInvestmentsLoop env itemId vs s).1.trace
      = s.trace ++ vs.map (fun v => Eff.upsertInvestment (investmentRecordOf itemId v))
    ∧ (upsertInvestmentsLoop env itemId vs s).2 = .ok () := by
  induction vs generalizing s with
  | nil => simp [upsertInvestmentsLoop]
  | cons v rest ih =>
    simp only [upsertInvestmentsLoop, investmentsService.upsertInvestment, hdb]
    refine ⟨?_, (ih _).2⟩
    rw [(ih _).1]
    simp [pushEff]

/-- Claim C8 counterexample: with one investment returned for the item, the
sync pass upserts that investment but performs no per-investment
transaction fetch at all — the orchestrator's step 5 stops after the
investment upserts. -/
theorem sync_no_investment_tx_fetch_counterexample :
    Eff.upsertInvestment (investmentRecordOf "IT1" invW8)
        ∈ (syncItemData envW8 "IT1" {}).trace
    ∧ ((syncItemData envW8 "IT1" {}).trace.all (fun ef => !(ef.isInvTxFetch))) = true := by
  have htr : (syncItemData envW8 "IT1" {}).trace
      = [Eff.fetchAccounts "IT1", Eff.fetchIdentity "IT1", Eff.fetchInvestments "IT1",
         Eff.upsertInvestment (investmentRecordOf "IT1" invW8), Eff.fetchLoans "IT1"] := rfl
  rw [htr]
  constructor
  · simp
  · rfl

/-- Claim C8 as amended: in step 5 of a sync pass the orchestrator fetches
the item's investments and upserts each mapped record, and nothing more —
it performs no per-investment transaction fetch (that behavior exists only
in the on-demand item-save endpoint, not in `syncItemData`). -/
theorem investments_step_upserts_only (env : Env) (itemId : String) (s : St)
    (invs : List PInvestment)
    (hinv : env.fetchInvestments itemId = .ok invs)
    (hdb : ∀ op, env.dbError op = none) :
    (syncInvestmentsStep env itemId s).trace
      = s.trace ++ Eff.fetchInvestments itemId
          :: invs.map (fun v => Eff.upsertInvestment (investmentRecordOf itemId v))
    ∧ (∀ invId : String, Eff.fetchInvestmentTransactions invId
          ∈ (syncInvestmentsStep env itemId s).trace →
        Eff.fetchInvestmentTransactions invId ∈ s.trace) := by
  have h1 : (syncInvestmentsStep env itemId s).trace
      = s.trace ++ Eff.fetchInvestments itemId
          :: invs.map (fun v => Eff.upsertInvestment (investmentRecordOf itemId v)) := by
    by_cases hl : invs.length > 0
    · simp only [syncInvestmentsStep, hinv]
      rw [if_pos hl]
      obtain ⟨ht, hr⟩ := upsertInvestmentsLoop_ok env itemId invs
        (pushEff s (.fetchInvestments itemId)) hdb
      rcases hloop : upsertInvestmentsLoop env itemId invs
        (pushEff s (.fetchInvestments itemId)) with ⟨s2, r⟩
      rw [hloop] at ht hr
      cases r with
      | ok u => simpa [pushEff] using ht
      | error e => simp at hr
    · have hz : invs = [] := List.length_eq_zero.mp (Nat.eq_zero_of_not_pos hl)
      subst hz
      simp [syncInvestmentsStep, hinv, pushEff]
  refine ⟨h1, ?_⟩
  intro invId hmem
  rw [h1] at hmem
  simp only [List.mem_append, List.mem_cons, List.mem_map] at hmem
  rcases hmem with h | h | ⟨v, hv, hveq⟩
  · exact h
  · exact absurd h (by simp)
  · exact absurd hveq (by simp)

theorem investments_step_upserts_only_witness :
    (syncInvestmentsStep envW8 "IT1" {}).trace
      = ({} : St).trace ++ Eff.fetchInvestments "IT1"
          :: [invW8].map (fun v => Eff.upsertInvestment (investmentRecordOf "IT1" v)) :=
  (investments_step_upserts_only envW8 "IT1" {} [invW8] rfl (fun _ => rfl)).1
